import Mathlib

/-!
Target selection of the 2018 vision sample (`Robot.cpp`).

A shallow embedding of the vision callback of `Robot::RobotInit` and of the
helpers it calls, followed by theorems about them.

Modelling conventions.

* C++ `int` is `Int`.  Pixel coordinates of a 320x240 image are far from the
  32-bit limits, so wrap-around is not modelled.
* C++ `int / int` truncates toward zero and has no result when the divisor is
  zero (`cdiv`); every function that performs such a division returns an
  `Option`.
* C++ `double` is idealised to exact arithmetic in an ordered field (`ℚ` when
  the code is run on concrete inputs, `ℝ` in the statements about all reals).
  The one non-finite value the callback can store, the quotient of a positive
  number by zero, is the constructor `Dbl.inf`.
* `std::tan(CAMERA_FOV_VERT*M_PI/(2*180))` is a positive constant of the
  program; the functions that use it take its value as the parameter `t`.
* The input of the callback is the list of the rectangles
  `cv::boundingRect(...)` of the filtered contours, in index order.
-/

namespace Robot

/-! ## Data model -/

/-- The four `int` fields of `cv::Rect`. -/
structure Rect where
  x : Int
  y : Int
  width : Int
  height : Int
deriving DecidableEq, Repr

/-- The helper class `Robot::boundingRect`: four `int` edges. -/
structure boundingRect where
  top : Int
  bottom : Int
  left : Int
  right : Int
deriving DecidableEq, Repr

/-- Constructor `boundingRect(cv::Rect rectangle1, cv::Rect rectangle2)`:
`std::max` is applied on every edge. -/
def boundingRect.ofRects (rectangle1 rectangle2 : Rect) : boundingRect :=
  { top := max rectangle1.y rectangle2.y
    bottom := max (rectangle1.y + rectangle1.height) (rectangle2.y + rectangle2.height)
    left := max rectangle1.x rectangle2.x
    right := max (rectangle1.x + rectangle1.width) (rectangle2.x + rectangle2.width) }

/-- Default constructor `boundingRect()`: `top = bottom = left = right = 0`. -/
def boundingRect.zero : boundingRect :=
  { top := 0, bottom := 0, left := 0, right := 0 }

/-- A stored `double`: a finite value, or the infinity produced by dividing a
positive number by zero. -/
inductive Dbl where
  | fin (q : ℚ)
  | inf
deriving DecidableEq, Repr

/-- The two fields `centerX` and `distance` of `Robot` that the callback
writes under `m_lock`. -/
structure Latch where
  centerX : ℚ
  distance : Dbl
deriving DecidableEq, Repr

/-- Member initialisers `double centerX = 0.0; double distance = 0.0;`. -/
def Latch.init : Latch :=
  { centerX := 0, distance := Dbl.fin 0 }

/-- The loop variables `highScore` and `target` of the callback. -/
structure Selection where
  highScore : ℚ
  target : boundingRect
deriving DecidableEq, Repr

/-! ## Constants -/

def IMG_WIDTH : Int := 320

def IMG_HEIGHT : Int := 240

def TARGET_HEIGHT : ℚ := 153 / 10

def CAMERA_FOV_VERT : ℚ := 41

def SCORE_THRESHOLD : Int := 75 * 6

/-! ## Arithmetic helpers -/

/-- Division `a / b` of C++ on `int`: truncation toward zero, no result for `b = 0`. -/
def cdiv (a b : Int) : Option Int :=
  if b = 0 then none else some (Int.tdiv a b)

/-- Member `Robot::ratioToScore`:
`std::max(0.0, std::min(100*(1-std::abs(1-ratio)), 100.0))`. -/
def ratioToScore {α : Type} [LinearOrderedField α] (ratio : α) : α :=
  max 0 (min (100 * (1 - |1 - ratio|)) 100)

/-- The conversion of an `int` ratio to the `double` parameter of
`ratioToScore`, followed by the call. -/
def scoreOfInt (ratio : Int) : ℚ :=
  ratioToScore (ratio : ℚ)

/-! ## The six score functions -/

/-- Member `Robot::boundingRatioScore`:
`ratioToScore((top-bottom)/(2*(left-right)))`. -/
def boundingRatioScore (rectangle1 rectangle2 : Rect) : Option ℚ :=
  let bounding := boundingRect.ofRects rectangle1 rectangle2
  (cdiv (bounding.top - bounding.bottom) (2 * (bounding.left - bounding.right))).map scoreOfInt

/-- Member `Robot::contourWidthScore`:
`ratioToScore(rectangle1.width*4/(right-left))`. -/
def contourWidthScore (rectangle1 rectangle2 : Rect) : Option ℚ :=
  let bounding := boundingRect.ofRects rectangle1 rectangle2
  (cdiv (rectangle1.width * 4) (bounding.right - bounding.left)).map scoreOfInt

/-- Member `Robot::topEdgeScore`:
`ratioToScore(1 + (rectangle1.y - rectangle2.y)/(top-bottom))`. -/
def topEdgeScore (rectangle1 rectangle2 : Rect) : Option ℚ :=
  let bounding := boundingRect.ofRects rectangle1 rectangle2
  (cdiv (rectangle1.y - rectangle2.y) (bounding.top - bounding.bottom)).map
    (fun q => scoreOfInt (1 + q))

/-- Member `Robot::leftSpacingScore`:
`ratioToScore(std::abs(rectangle2.x - rectangle1.x)*3/(4*right-left))`. -/
def leftSpacingScore (rectangle1 rectangle2 : Rect) : Option ℚ :=
  let bounding := boundingRect.ofRects rectangle1 rectangle2
  (cdiv (|rectangle2.x - rectangle1.x| * 3) (4 * bounding.right - bounding.left)).map scoreOfInt

/-- Member `Robot::widthRatioScore`: `ratioToScore(rectangle1.width/rectangle2.width)`. -/
def widthRatioScore (rectangle1 rectangle2 : Rect) : Option ℚ :=
  (cdiv rectangle1.width rectangle2.width).map scoreOfInt

/-- Member `Robot::heightRatioScore`:
`ratioToScore(rectangle1.height/rectangle2.height)`. -/
def heightRatioScore (rectangle1 rectangle2 : Rect) : Option ℚ :=
  (cdiv rectangle1.height rectangle2.height).map scoreOfInt

/-! ## The vision callback -/

/-- The body of the inner loop up to the threshold test: `scoreTotal` starts at
`0` and the six scores are added in the order of the source. -/
def scoreTotal (rectangle1 rectangle2 : Rect) : Option ℚ := do
  let s1 ← boundingRatioScore rectangle1 rectangle2
  let s2 ← contourWidthScore rectangle1 rectangle2
  let s3 ← topEdgeScore rectangle1 rectangle2
  let s4 ← leftSpacingScore rectangle1 rectangle2
  let s5 ← widthRatioScore rectangle1 rectangle2
  let s6 ← heightRatioScore rectangle1 rectangle2
  pure (0 + s1 + s2 + s3 + s4 + s5 + s6)

/-- The threshold test and the assignment it guards:
`if (scoreTotal > highScore && scoreTotal > SCORE_THRESHOLD)`. -/
def mark (sel : Selection) (rectangle1 rectangle2 : Rect) (total : ℚ) : Selection :=
  if total > sel.highScore ∧ total > (SCORE_THRESHOLD : ℚ) then
    { highScore := total, target := boundingRect.ofRects rectangle1 rectangle2 }
  else sel

/-- The inner loop `for (j = i+1; j < size; j++)`: `rest` holds the contours
after index `i`, visited in order. -/
def innerLoop (rectangle1 : Rect) : List Rect → Selection → Option Selection
  | [], sel => some sel
  | rectangle2 :: rest, sel =>
    match scoreTotal rectangle1 rectangle2 with
    | none => none
    | some total => innerLoop rectangle1 rest (mark sel rectangle1 rectangle2 total)

/-- The outer loop `for (i = 0; i < size; i++)` over the contour list. -/
def outerLoop : List Rect → Selection → Option Selection
  | [], sel => some sel
  | rectangle1 :: rest, sel =>
    match innerLoop rectangle1 rest sel with
    | none => none
    | some sel1 => outerLoop rest sel1

/-- The pair search of the callback: `highScore = 0`, `target = new
boundingRect()`, then the two nested loops. -/
def selectTarget (contours : List Rect) : Option Selection :=
  outerLoop contours { highScore := 0, target := boundingRect.zero }

/-- Statement `double viewHeight = TARGET_HEIGHT * IMG_HEIGHT / (target->bottom - target->top)`:
a `double` division, whose result for a zero divisor is infinity. -/
def viewHeight (target : boundingRect) : Dbl :=
  if target.bottom - target.top = 0 then Dbl.inf
  else Dbl.fin (TARGET_HEIGHT * (IMG_HEIGHT : ℚ) / ((target.bottom - target.top : Int) : ℚ))

/-- Statement `double localDistance = .5*viewHeight/std::tan(CAMERA_FOV_VERT*M_PI/(2*180))`,
with `t` the (positive) value of the tangent. -/
def localDistance (t : ℚ) (target : boundingRect) : Dbl :=
  match viewHeight target with
  | Dbl.fin v => Dbl.fin (1 / 2 * v / t)
  | Dbl.inf => Dbl.inf

/-- Statement `centerX = (target->left+target->right)/2`: an `int` division by the
literal `2`, stored in a `double`. -/
def centerXOf (target : boundingRect) : ℚ :=
  ((Int.tdiv (target.left + target.right) 2 : Int) : ℚ)

/-- One call of the vision callback on the contour rectangles of a frame:
the new value of `(centerX, distance)`, or `none` when an `int` division by
zero occurs in a score function. -/
def processFrame (t : ℚ) (contours : List Rect) (latch : Latch) : Option Latch :=
  if contours.length > 1 then
    match selectTarget contours with
    | none => none
    | some sel =>
      some { centerX := centerXOf sel.target, distance := localDistance t sel.target }
  else some latch

/-! ## Reading the pairs of a frame by index -/

/-- Total of the pair `(rectangle1, rest[j])` that the inner loop computes at
its step `j`; `none` when `j` is out of range or a division by zero occurs. -/
def rowTotal (rectangle1 : Rect) (rest : List Rect) (j : Nat) : Option ℚ :=
  match rest[j]? with
  | none => none
  | some rectangle2 => scoreTotal rectangle1 rectangle2

/-- Box `boundingRect(rectangle1, rest[j])` of the pair of step `j` of the
inner loop. -/
def rowBox (rectangle1 : Rect) (rest : List Rect) (j : Nat) : Option boundingRect :=
  match rest[j]? with
  | none => none
  | some rectangle2 => some (boundingRect.ofRects rectangle1 rectangle2)

/-- Total of the pair `(contours[i], contours[j])`; `none` when an index is
out of range or a division by zero occurs. -/
def pairTotal (contours : List Rect) (i j : Nat) : Option ℚ :=
  match contours[i]?, contours[j]? with
  | some rectangle1, some rectangle2 => scoreTotal rectangle1 rectangle2
  | _, _ => none

/-- Box `boundingRect(contours[i], contours[j])`. -/
def pairBox (contours : List Rect) (i j : Nat) : Option boundingRect :=
  match contours[i]?, contours[j]? with
  | some rectangle1, some rectangle2 => some (boundingRect.ofRects rectangle1 rectangle2)
  | _, _ => none

/-! ## `ratioToScore` -/

/-- The closed form of `ratioToScore` in any ordered field. -/
theorem ratioToScore_eq_ite {α : Type} [LinearOrderedField α] (x : α) :
    ratioToScore x =
      if x ≤ 0 then 0 else if x ≤ 1 then 100 * x else if x < 2 then 100 * (2 - x) else 0 := by
  unfold ratioToScore
  rcases le_total x 1 with h | h
  · rw [abs_of_nonneg (by linarith : (0 : α) ≤ 1 - x)]
    simp only [max_def, min_def]
    split_ifs <;> linarith
  · rw [abs_of_nonpos (by linarith : 1 - x ≤ 0)]
    simp only [max_def, min_def]
    split_ifs <;> linarith

/-- C4: for every real `x`, `ratioToScore x` is `0` for `x ≤ 0`, `100 * x` for
`0 < x ≤ 1`, `100 * (2 - x)` for `1 < x < 2` and `0` for `x ≥ 2`; its values at
`1`, `0`, `2`, `0.5` and `1.5` are `100`, `0`, `0`, `50` and `50`. -/
theorem ratioToScore_triangular :
    (∀ x : ℝ, ratioToScore x =
      if x ≤ 0 then 0 else if x ≤ 1 then 100 * x else if x < 2 then 100 * (2 - x) else 0) ∧
    ratioToScore (1 : ℝ) = 100 ∧ ratioToScore (0 : ℝ) = 0 ∧ ratioToScore (2 : ℝ) = 0 ∧
    ratioToScore (1 / 2 : ℝ) = 50 ∧ ratioToScore (3 / 2 : ℝ) = 50 := by
  refine ⟨fun x => ratioToScore_eq_ite x, ?_, ?_, ?_, ?_, ?_⟩ <;>
    rw [ratioToScore_eq_ite] <;> norm_num

/-- C5: for every real `x`, `0 ≤ ratioToScore x ≤ 100`. -/
theorem ratioToScore_range (x : ℝ) : 0 ≤ ratioToScore x ∧ ratioToScore x ≤ 100 := by
  unfold ratioToScore
  exact ⟨le_max_left _ _, max_le (by norm_num) (min_le_right _ _)⟩

/-- C6: `ratioToScore` is non-decreasing on `(-∞, 1]` and non-increasing on
`[1, +∞)`. -/
theorem ratioToScore_unimodal (a b : ℝ) (hab : a ≤ b) :
    (b ≤ 1 → ratioToScore a ≤ ratioToScore b) ∧
    (1 ≤ a → ratioToScore b ≤ ratioToScore a) := by
  constructor
  · intro hb
    rw [ratioToScore_eq_ite a, ratioToScore_eq_ite b]
    split_ifs <;> linarith
  · intro ha
    rw [ratioToScore_eq_ite a, ratioToScore_eq_ite b]
    split_ifs <;> linarith

/-- Witness of C6 at `a = 1/2`, `b = 1` (rising side) and reading of both
conclusions there. -/
theorem ratioToScore_unimodal_witness :
    (1 / 2 : ℝ) ≤ 1 ∧
    (((1 : ℝ) ≤ 1 → ratioToScore (1 / 2 : ℝ) ≤ ratioToScore (1 : ℝ)) ∧
      ((1 : ℝ) ≤ 1 / 2 → ratioToScore (1 : ℝ) ≤ ratioToScore (1 / 2 : ℝ))) :=
  ⟨by norm_num, ratioToScore_unimodal (1 / 2) 1 (by norm_num)⟩

/-! ## Evaluation helpers -/

/-- On an `int` ratio the score is `100` for ratio `1` and `0` otherwise. -/
theorem scoreOfInt_eq (n : Int) : scoreOfInt n = if n = 1 then 100 else 0 := by
  unfold scoreOfInt
  rw [ratioToScore_eq_ite]
  rcases lt_trichotomy n 1 with h | h | h
  · have h0 : n ≤ 0 := by omega
    have : (n : ℚ) ≤ 0 := by exact_mod_cast h0
    rw [if_pos this, if_neg (by omega)]
  · subst h; norm_num
  · have h2 : 2 ≤ n := by omega
    have : (2 : ℚ) ≤ (n : ℚ) := by exact_mod_cast h2
    rw [if_neg (by linarith), if_neg (by linarith), if_neg (by linarith), if_neg (by omega)]

/-! ## Frames with fewer than two contours -/

/-- C10: a frame with fewer than two rects leaves the latch as it was, and
from the initial latch the value stays `{0, 0}`. -/
theorem processFrame_insufficient (t : ℚ) (contours : List Rect) (latch : Latch)
    (h : contours.length < 2) :
    processFrame t contours latch = some latch ∧
    processFrame t contours Latch.init = some { centerX := 0, distance := Dbl.fin 0 } := by
  have hn : ¬ contours.length > 1 := by omega
  simp [processFrame, hn, Latch.init]

/-- Witness of C10: the single-contour frame `[Rect(100, 50, 10, 40)]` with a
latch holding `(120, 122)`. -/
theorem processFrame_insufficient_witness :
    [Rect.mk 100 50 10 40].length < 2 ∧
    (processFrame (3 / 8) [Rect.mk 100 50 10 40] { centerX := 120, distance := Dbl.fin 122 } =
        some { centerX := 120, distance := Dbl.fin 122 } ∧
      processFrame (3 / 8) [Rect.mk 100 50 10 40] Latch.init =
        some { centerX := 0, distance := Dbl.fin 0 }) :=
  ⟨by decide, processFrame_insufficient (3 / 8) [Rect.mk 100 50 10 40]
    { centerX := 120, distance := Dbl.fin 122 } (by decide)⟩

/-! ## Evaluation on the scenario frames -/

/-- C1: on the frame `[Rect(0,0,100,10), Rect(200,100,5,80)]` the only pair
totals `0`, which is not above `SCORE_THRESHOLD`, and the callback still
writes the latch: a prior value `(120, 122.8)` becomes `(0, infinity)`. -/
theorem processFrame_subthreshold_overwrites :
    scoreTotal (Rect.mk 0 0 100 10) (Rect.mk 200 100 5 80) = some 0 ∧
    selectTarget [Rect.mk 0 0 100 10, Rect.mk 200 100 5 80] =
      some { highScore := 0, target := boundingRect.zero } ∧
    ∀ t : ℚ, processFrame t [Rect.mk 0 0 100 10, Rect.mk 200 100 5 80]
        { centerX := 120, distance := Dbl.fin (614 / 5) } =
      some { centerX := 0, distance := Dbl.inf } := by
  refine ⟨?_, ?_, fun t => ?_⟩ <;>
    simp +decide [processFrame, selectTarget, outerLoop, innerLoop, mark, scoreTotal,
      boundingRatioScore, contourWidthScore, topEdgeScore, leftSpacingScore, widthRatioScore,
      heightRatioScore, boundingRect.ofRects, cdiv, scoreOfInt_eq, centerXOf, localDistance,
      viewHeight, boundingRect.zero]

/-- C2: on the frame `[Rect(100,50,10,40), Rect(130,50,10,40)]` the six scores
are `0, 0, 100, 0, 100, 100`, the total is `300`, the box computed for the
pair has `left = 130`, no pair is marked, and the callback writes
`centerX = 0`. -/
theorem processFrame_perfect_pair :
    boundingRect.ofRects (Rect.mk 100 50 10 40) (Rect.mk 130 50 10 40) =
      { top := 50, bottom := 90, left := 130, right := 140 } ∧
    boundingRatioScore (Rect.mk 100 50 10 40) (Rect.mk 130 50 10 40) = some 0 ∧
    contourWidthScore (Rect.mk 100 50 10 40) (Rect.mk 130 50 10 40) = some 0 ∧
    topEdgeScore (Rect.mk 100 50 10 40) (Rect.mk 130 50 10 40) = some 100 ∧
    leftSpacingScore (Rect.mk 100 50 10 40) (Rect.mk 130 50 10 40) = some 0 ∧
    widthRatioScore (Rect.mk 100 50 10 40) (Rect.mk 130 50 10 40) = some 100 ∧
    heightRatioScore (Rect.mk 100 50 10 40) (Rect.mk 130 50 10 40) = some 100 ∧
    scoreTotal (Rect.mk 100 50 10 40) (Rect.mk 130 50 10 40) = some 300 ∧
    selectTarget [Rect.mk 100 50 10 40, Rect.mk 130 50 10 40] =
      some { highScore := 0, target := boundingRect.zero } ∧
    ∀ (t : ℚ) (latch : Latch),
      processFrame t [Rect.mk 100 50 10 40, Rect.mk 130 50 10 40] latch =
        some { centerX := 0, distance := Dbl.inf } := by
  refine ⟨?_, ?_, ?_, ?_, ?_, ?_, ?_, ?_, ?_, fun t latch => ?_⟩ <;>
    simp +decide [processFrame, selectTarget, outerLoop, innerLoop, mark, scoreTotal,
      boundingRatioScore, contourWidthScore, topEdgeScore, leftSpacingScore, widthRatioScore,
      heightRatioScore, boundingRect.ofRects, cdiv, scoreOfInt_eq, centerXOf, localDistance,
      viewHeight, boundingRect.zero, SCORE_THRESHOLD] <;> norm_num

/-- C3: for `r1 = Rect(100,50,10,40)` and `r2 = Rect(130,60,10,40)` the
constructor yields `top = 60` and `left = 130`, not the minima `50` and `100`,
so the corner `(100, 50)` of `r1` is outside the computed box. -/
theorem boundingRect_not_enclosing :
    boundingRect.ofRects (Rect.mk 100 50 10 40) (Rect.mk 130 60 10 40) =
      { top := 60, bottom := 100, left := 130, right := 140 } ∧
    (boundingRect.ofRects (Rect.mk 100 50 10 40) (Rect.mk 130 60 10 40)).top ≠ min 50 60 ∧
    (boundingRect.ofRects (Rect.mk 100 50 10 40) (Rect.mk 130 60 10 40)).left ≠ min 100 130 ∧
    ¬ ((boundingRect.ofRects (Rect.mk 100 50 10 40) (Rect.mk 130 60 10 40)).left ≤ 100) ∧
    ¬ ((boundingRect.ofRects (Rect.mk 100 50 10 40) (Rect.mk 130 60 10 40)).top ≤ 50) := by
  decide

/-- C7: with a zero divisor the score functions have no result: a second rect
of width `0` (`widthRatioScore`), of height `0` (`heightRatioScore`), a box of
zero width (`boundingRatioScore`, `contourWidthScore`), a box of zero height
(`topEdgeScore`), `4*right - left = 0` (`leftSpacingScore`); and a frame that
holds a rect of width `0` is not processed to the end. -/
theorem score_zero_divisor_fails :
    (∀ r1 r2 : Rect, widthRatioScore r1 { r2 with width := 0 } = none) ∧
    (∀ r1 r2 : Rect, heightRatioScore r1 { r2 with height := 0 } = none) ∧
    boundingRatioScore (Rect.mk 0 0 0 10) (Rect.mk 0 0 0 10) = none ∧
    contourWidthScore (Rect.mk 0 0 0 10) (Rect.mk 0 0 0 10) = none ∧
    topEdgeScore (Rect.mk 0 0 10 0) (Rect.mk 20 0 10 0) = none ∧
    leftSpacingScore (Rect.mk 0 0 0 10) (Rect.mk 0 0 0 10) = none ∧
    ∀ (t : ℚ) (latch : Latch),
      processFrame t [Rect.mk 100 50 10 40, Rect.mk 130 50 0 40] latch = none := by
  refine ⟨fun r1 r2 => ?_, fun r1 r2 => ?_, ?_, ?_, ?_, ?_, fun t latch => ?_⟩ <;>
    simp +decide [processFrame, selectTarget, outerLoop, innerLoop, mark, scoreTotal,
      boundingRatioScore, contourWidthScore, topEdgeScore, leftSpacingScore, widthRatioScore,
      heightRatioScore, boundingRect.ofRects, cdiv, scoreOfInt_eq]

/-! ## The nested loops -/

theorem rowTotal_zero (r1 r2 : Rect) (rest : List Rect) :
    rowTotal r1 (r2 :: rest) 0 = scoreTotal r1 r2 := by
  simp [rowTotal]

theorem rowTotal_succ (r1 r2 : Rect) (rest : List Rect) (j : Nat) :
    rowTotal r1 (r2 :: rest) (j + 1) = rowTotal r1 rest j := by
  simp [rowTotal]

theorem rowBox_zero (r1 r2 : Rect) (rest : List Rect) :
    rowBox r1 (r2 :: rest) 0 = some (boundingRect.ofRects r1 r2) := by
  simp [rowBox]

theorem rowBox_succ (r1 r2 : Rect) (rest : List Rect) (j : Nat) :
    rowBox r1 (r2 :: rest) (j + 1) = rowBox r1 rest j := by
  simp [rowBox]

theorem pairTotal_zero_succ (r1 : Rect) (rest : List Rect) (j : Nat) :
    pairTotal (r1 :: rest) 0 (j + 1) = rowTotal r1 rest j := by
  simp only [pairTotal, rowTotal, List.getElem?_cons_zero, List.getElem?_cons_succ]
  cases rest[j]? <;> rfl

theorem pairTotal_succ_succ (r1 : Rect) (rest : List Rect) (i j : Nat) :
    pairTotal (r1 :: rest) (i + 1) (j + 1) = pairTotal rest i j := by
  simp [pairTotal]

theorem pairBox_zero_succ (r1 : Rect) (rest : List Rect) (j : Nat) :
    pairBox (r1 :: rest) 0 (j + 1) = rowBox r1 rest j := by
  simp only [pairBox, rowBox, List.getElem?_cons_zero, List.getElem?_cons_succ]
  cases rest[j]? <;> rfl

theorem pairBox_succ_succ (r1 : Rect) (rest : List Rect) (i j : Nat) :
    pairBox (r1 :: rest) (i + 1) (j + 1) = pairBox rest i j := by
  simp [pairBox]

theorem mark_of_gt (sel : Selection) (r1 r2 : Rect) (s : ℚ)
    (h : s > sel.highScore ∧ s > (SCORE_THRESHOLD : ℚ)) :
    mark sel r1 r2 s = { highScore := s, target := boundingRect.ofRects r1 r2 } := by
  simp only [mark, if_pos h]

theorem mark_of_not_gt (sel : Selection) (r1 r2 : Rect) (s : ℚ)
    (h : ¬ (s > sel.highScore ∧ s > (SCORE_THRESHOLD : ℚ))) :
    mark sel r1 r2 s = sel := by
  simp only [mark, if_neg h]

/-- Result of the inner loop when every total of the row is defined: either
nothing is marked and no total of the row beats both the incoming high score
and the threshold, or the first maximal total of the row is marked. -/
theorem innerLoop_spec (r1 : Rect) (rest : List Rect) :
    ∀ sel0 : Selection,
    (∀ j, j < rest.length → ∃ s, rowTotal r1 rest j = some s) →
    ∃ sel, innerLoop r1 rest sel0 = some sel ∧
      ((sel = sel0 ∧
          ∀ j s, rowTotal r1 rest j = some s →
            s ≤ sel0.highScore ∨ s ≤ (SCORE_THRESHOLD : ℚ)) ∨
        (sel0.highScore < sel.highScore ∧ (SCORE_THRESHOLD : ℚ) < sel.highScore ∧
          ∃ j, rowTotal r1 rest j = some sel.highScore ∧ rowBox r1 rest j = some sel.target ∧
            (∀ j' s, rowTotal r1 rest j' = some s → s ≤ sel.highScore) ∧
            (∀ j' s, j' < j → rowTotal r1 rest j' = some s → s < sel.highScore))) := by
  induction rest with
  | nil =>
    intro sel0 _
    refine ⟨sel0, rfl, Or.inl ⟨rfl, ?_⟩⟩
    intro j s h
    simp [rowTotal] at h
  | cons r2 rest ih =>
    intro sel0 hdef
    obtain ⟨s0, hs0⟩ := hdef 0 (by simp)
    rw [rowTotal_zero] at hs0
    have hdef1 : ∀ j, j < rest.length → ∃ s, rowTotal r1 rest j = some s := by
      intro j hj
      have := hdef (j + 1) (by simpa using hj)
      rwa [rowTotal_succ] at this
    obtain ⟨sel, hrun, hres⟩ := ih (mark sel0 r1 r2 s0) hdef1
    refine ⟨sel, by simp only [innerLoop, hs0, hrun], ?_⟩
    by_cases hm : s0 > sel0.highScore ∧ s0 > (SCORE_THRESHOLD : ℚ)
    · rw [mark_of_gt sel0 r1 r2 s0 hm] at hres
      rcases hres with ⟨heq, hall⟩ | ⟨hgt, hthr, j, htot, hbox, hall, hbefore⟩
      · right
        subst heq
        refine ⟨hm.1, hm.2, 0, by rw [rowTotal_zero, hs0], by rw [rowBox_zero], ?_, ?_⟩
        · intro j' s hj'
          cases j' with
          | zero =>
            rw [rowTotal_zero, hs0] at hj'
            exact le_of_eq (Option.some.inj hj').symm
          | succ k =>
            rw [rowTotal_succ] at hj'
            rcases hall k s hj' with h | h
            · exact h
            · exact le_of_lt (lt_of_le_of_lt h hm.2)
        · intro j' s hlt _
          exact absurd hlt (Nat.not_lt_zero _)
      · right
        simp only at hgt
        refine ⟨lt_trans hm.1 hgt, hthr, j + 1, by rw [rowTotal_succ, htot],
          by rw [rowBox_succ, hbox], ?_, ?_⟩
        · intro j' s hj'
          cases j' with
          | zero =>
            rw [rowTotal_zero, hs0] at hj'
            rw [← Option.some.inj hj']
            exact le_of_lt hgt
          | succ k =>
            rw [rowTotal_succ] at hj'
            exact hall k s hj'
        · intro j' s hlt hj'
          cases j' with
          | zero =>
            rw [rowTotal_zero, hs0] at hj'
            rw [← Option.some.inj hj']
            exact hgt
          | succ k =>
            rw [rowTotal_succ] at hj'
            exact hbefore k s (by omega) hj'
    · rw [mark_of_not_gt sel0 r1 r2 s0 hm] at hres
      have hs0le : s0 ≤ sel0.highScore ∨ s0 ≤ (SCORE_THRESHOLD : ℚ) := by
        by_contra hc
        push_neg at hc
        exact hm ⟨hc.1, hc.2⟩
      rcases hres with ⟨heq, hall⟩ | ⟨hgt, hthr, j, htot, hbox, hall, hbefore⟩
      · left
        refine ⟨heq, ?_⟩
        intro j' s hj'
        cases j' with
        | zero =>
          rw [rowTotal_zero, hs0] at hj'
          rw [← Option.some.inj hj']
          exact hs0le
        | succ k =>
          rw [rowTotal_succ] at hj'
          exact hall k s hj'
      · right
        have hs0lt : s0 < sel.highScore := by
          rcases hs0le with h | h
          · exact lt_of_le_of_lt h hgt
          · exact lt_of_le_of_lt h hthr
        refine ⟨hgt, hthr, j + 1, by rw [rowTotal_succ, htot],
          by rw [rowBox_succ, hbox], ?_, ?_⟩
        · intro j' s hj'
          cases j' with
          | zero =>
            rw [rowTotal_zero, hs0] at hj'
            rw [← Option.some.inj hj']
            exact le_of_lt hs0lt
          | succ k =>
            rw [rowTotal_succ] at hj'
            exact hall k s hj'
        · intro j' s hlt hj'
          cases j' with
          | zero =>
            rw [rowTotal_zero, hs0] at hj'
            rw [← Option.some.inj hj']
            exact hs0lt
          | succ k =>
            rw [rowTotal_succ] at hj'
            exact hbefore k s (by omega) hj'

/-- Result of the nested loops when every pair total is defined: either
nothing is marked and no pair beats both the incoming high score and the
threshold, or the marked pair is the first pair, in the order `i` ascending
then `j` ascending, whose total is maximal. -/
theorem outerLoop_spec (l : List Rect) :
    ∀ sel0 : Selection,
    (∀ i j, i < j → j < l.length → ∃ s, pairTotal l i j = some s) →
    ∃ sel, outerLoop l sel0 = some sel ∧
      ((sel = sel0 ∧
          ∀ i j s, i < j → pairTotal l i j = some s →
            s ≤ sel0.highScore ∨ s ≤ (SCORE_THRESHOLD : ℚ)) ∨
        (sel0.highScore < sel.highScore ∧ (SCORE_THRESHOLD : ℚ) < sel.highScore ∧
          ∃ i j, i < j ∧ pairTotal l i j = some sel.highScore ∧
            pairBox l i j = some sel.target ∧
            (∀ i' j' s, i' < j' → pairTotal l i' j' = some s → s ≤ sel.highScore) ∧
            (∀ i' j' s, i' < j' → (i' < i ∨ (i' = i ∧ j' < j)) →
              pairTotal l i' j' = some s → s < sel.highScore))) := by
  induction l with
  | nil =>
    intro sel0 _
    refine ⟨sel0, rfl, Or.inl ⟨rfl, ?_⟩⟩
    intro i j s _ h
    simp [pairTotal] at h
  | cons r1 rest ih =>
    intro sel0 hdef
    have hrow : ∀ j, j < rest.length → ∃ s, rowTotal r1 rest j = some s := by
      intro j hj
      have := hdef 0 (j + 1) (by omega) (by simpa using hj)
      rwa [pairTotal_zero_succ] at this
    have hrest : ∀ i j, i < j → j < rest.length → ∃ s, pairTotal rest i j = some s := by
      intro i j hij hj
      have := hdef (i + 1) (j + 1) (by omega) (by simpa using hj)
      rwa [pairTotal_succ_succ] at this
    obtain ⟨sel1, hrun1, hres1⟩ := innerLoop_spec r1 rest sel0 hrow
    obtain ⟨sel, hrun, hres⟩ := ih sel1 hrest
    refine ⟨sel, by simp only [outerLoop, hrun1, hrun], ?_⟩
    rcases hres1 with ⟨heq1, hrowall⟩ | ⟨hgt1, hthr1, jr, hrtot, hrbox, hrowall, hrowbefore⟩
    · subst heq1
      rcases hres with ⟨heq, hall⟩ | ⟨hgt, hthr, i, j, hij, htot, hbox, hall, hbefore⟩
      · left
        refine ⟨heq, ?_⟩
        intro i' j' s hlt hp
        cases j' with
        | zero => exact absurd hlt (Nat.not_lt_zero _)
        | succ k =>
          cases i' with
          | zero =>
            rw [pairTotal_zero_succ] at hp
            exact hrowall k s hp
          | succ m =>
            rw [pairTotal_succ_succ] at hp
            exact hall m k s (by omega) hp
      · right
        have hrowlt : ∀ k s, rowTotal r1 rest k = some s → s < sel.highScore := by
          intro k s hk
          rcases hrowall k s hk with h | h
          · exact lt_of_le_of_lt h hgt
          · exact lt_of_le_of_lt h hthr
        refine ⟨hgt, hthr, i + 1, j + 1, by omega, by rw [pairTotal_succ_succ, htot],
          by rw [pairBox_succ_succ, hbox], ?_, ?_⟩
        · intro i' j' s hlt hp
          cases j' with
          | zero => exact absurd hlt (Nat.not_lt_zero _)
          | succ k =>
            cases i' with
            | zero =>
              rw [pairTotal_zero_succ] at hp
              exact le_of_lt (hrowlt k s hp)
            | succ m =>
              rw [pairTotal_succ_succ] at hp
              exact hall m k s (by omega) hp
        · intro i' j' s hlt hlex hp
          cases j' with
          | zero => exact absurd hlt (Nat.not_lt_zero _)
          | succ k =>
            cases i' with
            | zero =>
              rw [pairTotal_zero_succ] at hp
              exact hrowlt k s hp
            | succ m =>
              rw [pairTotal_succ_succ] at hp
              exact hbefore m k s (by omega) (by omega) hp
    · rcases hres with ⟨heq, hall⟩ | ⟨hgt, hthr, i, j, hij, htot, hbox, hall, hbefore⟩
      · right
        subst heq
        refine ⟨hgt1, hthr1, 0, jr + 1, by omega, by rw [pairTotal_zero_succ, hrtot],
          by rw [pairBox_zero_succ, hrbox], ?_, ?_⟩
        · intro i' j' s hlt hp
          cases j' with
          | zero => exact absurd hlt (Nat.not_lt_zero _)
          | succ k =>
            cases i' with
            | zero =>
              rw [pairTotal_zero_succ] at hp
              exact hrowall k s hp
            | succ m =>
              rw [pairTotal_succ_succ] at hp
              rcases hall m k s (by omega) hp with h | h
              · exact h
              · exact le_of_lt (lt_of_le_of_lt h hthr1)
        · intro i' j' s hlt hlex hp
          cases j' with
          | zero => exact absurd hlt (Nat.not_lt_zero _)
          | succ k =>
            cases i' with
            | zero =>
              rw [pairTotal_zero_succ] at hp
              exact hrowbefore k s (by omega) hp
            | succ m => omega
      · right
        have hrowlt : ∀ k s, rowTotal r1 rest k = some s → s < sel.highScore :=
          fun k s hk => lt_of_le_of_lt (hrowall k s hk) hgt
        refine ⟨lt_trans hgt1 hgt, hthr, i + 1, j + 1, by omega,
          by rw [pairTotal_succ_succ, htot], by rw [pairBox_succ_succ, hbox], ?_, ?_⟩
        · intro i' j' s hlt hp
          cases j' with
          | zero => exact absurd hlt (Nat.not_lt_zero _)
          | succ k =>
            cases i' with
            | zero =>
              rw [pairTotal_zero_succ] at hp
              exact le_of_lt (hrowlt k s hp)
            | succ m =>
              rw [pairTotal_succ_succ] at hp
              exact hall m k s (by omega) hp
        · intro i' j' s hlt hlex hp
          cases j' with
          | zero => exact absurd hlt (Nat.not_lt_zero _)
          | succ k =>
            cases i' with
            | zero =>
              rw [pairTotal_zero_succ] at hp
              exact hrowlt k s hp
            | succ m =>
              rw [pairTotal_succ_succ] at hp
              exact hbefore m k s (by omega) (by omega) hp

/-! ## Symmetry of the scores -/

theorem boundingRect_ofRects_comm (r1 r2 : Rect) :
    boundingRect.ofRects r1 r2 = boundingRect.ofRects r2 r1 := by
  simp only [boundingRect.ofRects, max_comm]

theorem boundingRatioScore_comm (r1 r2 : Rect) :
    boundingRatioScore r1 r2 = boundingRatioScore r2 r1 := by
  simp only [boundingRatioScore, boundingRect_ofRects_comm r1 r2]

theorem leftSpacingScore_comm (r1 r2 : Rect) :
    leftSpacingScore r1 r2 = leftSpacingScore r2 r1 := by
  simp only [leftSpacingScore, boundingRect_ofRects_comm r1 r2, abs_sub_comm r2.x r1.x]

theorem scoreOfInt_one_add_neg (q : Int) : scoreOfInt (1 + -q) = scoreOfInt (1 + q) := by
  rw [scoreOfInt_eq, scoreOfInt_eq]
  by_cases h : q = 0
  · subst h; rfl
  · rw [if_neg (by omega), if_neg (by omega)]

theorem topEdgeScore_comm (r1 r2 : Rect) :
    topEdgeScore r1 r2 = topEdgeScore r2 r1 := by
  simp only [topEdgeScore, boundingRect_ofRects_comm r1 r2, cdiv]
  have hneg : r1.y - r2.y = -(r2.y - r1.y) := by ring
  by_cases h : (boundingRect.ofRects r2 r1).top - (boundingRect.ofRects r2 r1).bottom = 0
  · simp only [if_pos h, Option.map_none']
  · simp only [if_neg h, Option.map_some', hneg, Int.neg_tdiv, scoreOfInt_one_add_neg]

theorem contourWidthScore_comm (r1 r2 : Rect) (hw : r1.width = r2.width) :
    contourWidthScore r1 r2 = contourWidthScore r2 r1 := by
  simp only [contourWidthScore, boundingRect_ofRects_comm r1 r2, hw]

theorem widthRatioScore_comm (r1 r2 : Rect) (hw : r1.width = r2.width) :
    widthRatioScore r1 r2 = widthRatioScore r2 r1 := by
  simp only [widthRatioScore, hw]

theorem heightRatioScore_comm (r1 r2 : Rect) (hh : r1.height = r2.height) :
    heightRatioScore r1 r2 = heightRatioScore r2 r1 := by
  simp only [heightRatioScore, hh]

/-- For two rects of equal width and equal height the six-score total does
not depend on which of them is `rectangle1`. -/
theorem scoreTotal_comm (r1 r2 : Rect) (hw : r1.width = r2.width)
    (hh : r1.height = r2.height) : scoreTotal r1 r2 = scoreTotal r2 r1 := by
  simp only [scoreTotal, boundingRatioScore_comm r1 r2, leftSpacingScore_comm r1 r2,
    topEdgeScore_comm r1 r2, contourWidthScore_comm r1 r2 hw, widthRatioScore_comm r1 r2 hw,
    heightRatioScore_comm r1 r2 hh]

/-! ## The nested loops and permutations of the contour list -/

theorem pairTotal_eq_getElem (l : List Rect) (i j : Nat) (hi : i < l.length)
    (hj : j < l.length) : pairTotal l i j = scoreTotal l[i] l[j] := by
  simp only [pairTotal, List.getElem?_eq_getElem hi, List.getElem?_eq_getElem hj]

theorem pairTotal_some_lt (l : List Rect) (i j : Nat) (s : ℚ)
    (h : pairTotal l i j = some s) : i < l.length ∧ j < l.length := by
  constructor
  · by_contra hi
    simp [pairTotal, List.getElem?_eq_none (Nat.le_of_not_lt hi)] at h
  · by_contra hj
    rw [pairTotal, List.getElem?_eq_none (Nat.le_of_not_lt hj)] at h
    cases hli : l[i]? <;> simp [hli] at h

theorem forall_pairTotal_iff_pairwise (P : ℚ → Prop) (l : List Rect) :
    (∀ i j s, i < j → pairTotal l i j = some s → P s) ↔
      l.Pairwise (fun a b => ∀ s, scoreTotal a b = some s → P s) := by
  rw [List.pairwise_iff_getElem]
  constructor
  · intro h i j hi hj hij s hs
    exact h i j s hij (by rw [pairTotal_eq_getElem l i j hi hj, hs])
  · intro h i j s hij hs
    obtain ⟨hi, hj⟩ := pairTotal_some_lt l i j s hs
    rw [pairTotal_eq_getElem l i j hi hj] at hs
    exact h i j hi hj hij s hs

theorem defined_iff_pairwise (l : List Rect) :
    (∀ i j, i < j → j < l.length → ∃ s, pairTotal l i j = some s) ↔
      l.Pairwise (fun a b => (scoreTotal a b).isSome = true) := by
  rw [List.pairwise_iff_getElem]
  constructor
  · intro h i j hi hj hij
    obtain ⟨s, hs⟩ := h i j hij hj
    rw [pairTotal_eq_getElem l i j hi hj] at hs
    rw [hs]; rfl
  · intro h i j hij hj
    have hi : i < l.length := lt_trans hij hj
    rw [pairTotal_eq_getElem l i j hi hj]
    exact Option.isSome_iff_exists.mp (h i j hi hj hij)

theorem innerLoop_isSome (r1 : Rect) (rest : List Rect) :
    ∀ sel0 : Selection,
    (innerLoop r1 rest sel0).isSome = true ↔ ∀ b ∈ rest, (scoreTotal r1 b).isSome = true := by
  induction rest with
  | nil => intro sel0; simp [innerLoop]
  | cons r2 rest ih =>
    intro sel0
    cases hs : scoreTotal r1 r2 with
    | none => simp [innerLoop, hs]
    | some s => simp [innerLoop, hs, ih]

theorem outerLoop_isSome (l : List Rect) :
    ∀ sel0 : Selection,
    (outerLoop l sel0).isSome = true ↔ l.Pairwise (fun a b => (scoreTotal a b).isSome = true) := by
  induction l with
  | nil => intro sel0; simp [outerLoop]
  | cons r1 rest ih =>
    intro sel0
    rw [List.pairwise_cons, ← innerLoop_isSome r1 rest sel0]
    cases hs : innerLoop r1 rest sel0 with
    | none => simp [outerLoop, hs]
    | some sel1 => simp [outerLoop, hs, ih]

/-- A property of all pair totals of a list of rects of one width and one
height carries over to every permutation of the list. -/
theorem pairwise_scoreTotal_perm (Q : Option ℚ → Prop) (w h : Int) (l l' : List Rect)
    (hperm : l.Perm l') (hsz : ∀ r ∈ l, r.width = w ∧ r.height = h)
    (hl : l.Pairwise (fun a b => Q (scoreTotal a b))) :
    l'.Pairwise (fun a b => Q (scoreTotal a b)) := by
  have h1 : l.Pairwise (fun a b => a.width = b.width → a.height = b.height →
      Q (scoreTotal a b)) := hl.imp (fun hq _ _ => hq)
  have hsymm : ∀ {x y : Rect}, (x.width = y.width → x.height = y.height → Q (scoreTotal x y)) →
      (y.width = x.width → y.height = x.height → Q (scoreTotal y x)) := by
    intro x y hxy hw hh
    rw [scoreTotal_comm y x hw hh]
    exact hxy hw.symm hh.symm
  have h2 := (List.Perm.pairwise_iff hsymm hperm).mp h1
  refine h2.imp_of_mem ?_
  intro a b ha hb hab
  have ha' := hsz a (hperm.mem_iff.mpr ha)
  have hb' := hsz b (hperm.mem_iff.mpr hb)
  exact hab (by rw [ha'.1, hb'.1]) (by rw [ha'.2, hb'.2])

/-- One direction of the comparison of the high scores of a list of rects of
one width and one height and of a permutation of it. -/
theorem selectTarget_perm_le (w h : Int) (l l' : List Rect) (hperm : l.Perm l')
    (hsz : ∀ r ∈ l, r.width = w ∧ r.height = h) (sel sel' : Selection)
    (hsel : selectTarget l = some sel) (hsel' : selectTarget l' = some sel') :
    sel.highScore ≤ sel'.highScore := by
  have hD : ∀ i j, i < j → j < l.length → ∃ s, pairTotal l i j = some s := by
    rw [defined_iff_pairwise, ← outerLoop_isSome l { highScore := 0, target := boundingRect.zero }]
    have : outerLoop l { highScore := 0, target := boundingRect.zero } = some sel := hsel
    rw [this]; rfl
  have hD' : ∀ i j, i < j → j < l'.length → ∃ s, pairTotal l' i j = some s := by
    rw [defined_iff_pairwise, ← outerLoop_isSome l' { highScore := 0, target := boundingRect.zero }]
    have : outerLoop l' { highScore := 0, target := boundingRect.zero } = some sel' := hsel'
    rw [this]; rfl
  obtain ⟨x, hx, hres⟩ := outerLoop_spec l { highScore := 0, target := boundingRect.zero } hD
  obtain ⟨x', hx', hres'⟩ := outerLoop_spec l' { highScore := 0, target := boundingRect.zero } hD'
  have e : x = sel := Option.some.inj (hx.symm.trans hsel)
  have e' : x' = sel' := Option.some.inj (hx'.symm.trans hsel')
  subst e; subst e'
  have hT : (0 : ℚ) ≤ (SCORE_THRESHOLD : ℚ) := by simp [SCORE_THRESHOLD]
  rcases hres with ⟨heq, _⟩ | ⟨_, hthr, i, j, hij, htot, _, _, _⟩
  · rcases hres' with ⟨heq', _⟩ | ⟨hgt', _⟩
    · rw [heq, heq']
    · rw [heq]; exact le_of_lt hgt'
  · -- the pair of `l` that carries the high score bounds the totals of `l'`
    have hbound : ∀ c : ℚ, (∀ i j s, i < j → pairTotal l' i j = some s → s ≤ c) →
        x.highScore ≤ c := by
      intro c hc
      have hp' := (forall_pairTotal_iff_pairwise (fun s => s ≤ c) l').mp hc
      have hp := pairwise_scoreTotal_perm (fun o => ∀ s, o = some s → s ≤ c) w h l' l
        hperm.symm (fun r hr => hsz r (hperm.mem_iff.mpr hr)) hp'
      exact (forall_pairTotal_iff_pairwise (fun s => s ≤ c) l).mpr hp i j _ hij htot
    rcases hres' with ⟨heq', hall'⟩ | ⟨_, _, _, _, _, _, _, hall', _⟩
    · have hle : x.highScore ≤ (SCORE_THRESHOLD : ℚ) := by
        apply hbound
        intro i' j' s hij' hs
        rcases hall' i' j' s hij' hs with h0 | h0
        · exact le_trans h0 hT
        · exact h0
      exact absurd hthr (not_lt.mpr hle)
    · exact hbound _ hall'

/-! ## The selector -/

/-- C9: for a candidate list of at least two rects on which every pair total
is defined, the pair search ends with a selection `sel` from which the
callback computes what it writes, and: a pair is marked (`highScore` above
`SCORE_THRESHOLD`) iff some pair `i < j` has a total above `SCORE_THRESHOLD`;
when none is marked the initial values `0` and `boundingRect()` are kept; when
one is marked it is a pair `i < j` whose total is `highScore`, no pair has a
larger total, every pair before it in the order `i` ascending, then `j`
ascending has a strictly smaller total, and `target` is the `boundingRect` of
exactly that pair. -/
theorem selectTarget_first_maximal (t : ℚ) (latch : Latch) (l : List Rect)
    (hN : 2 ≤ l.length)
    (hdef : ∀ i j, i < j → j < l.length → ∃ s, pairTotal l i j = some s) :
    ∃ sel, selectTarget l = some sel ∧
      processFrame t l latch =
        some { centerX := centerXOf sel.target, distance := localDistance t sel.target } ∧
      ((SCORE_THRESHOLD : ℚ) < sel.highScore ↔
        ∃ i j s, i < j ∧ pairTotal l i j = some s ∧ (SCORE_THRESHOLD : ℚ) < s) ∧
      (¬ (SCORE_THRESHOLD : ℚ) < sel.highScore →
        sel = { highScore := 0, target := boundingRect.zero }) ∧
      ((SCORE_THRESHOLD : ℚ) < sel.highScore →
        ∃ i j, i < j ∧ pairTotal l i j = some sel.highScore ∧
          pairBox l i j = some sel.target ∧
          (∀ i' j' s, i' < j' → pairTotal l i' j' = some s → s ≤ sel.highScore) ∧
          (∀ i' j' s, i' < j' → (i' < i ∨ (i' = i ∧ j' < j)) →
            pairTotal l i' j' = some s → s < sel.highScore)) := by
  obtain ⟨sel, hsel, hres⟩ :=
    outerLoop_spec l { highScore := 0, target := boundingRect.zero } hdef
  have hT : (0 : ℚ) ≤ (SCORE_THRESHOLD : ℚ) := by simp [SCORE_THRESHOLD]
  have hlen : l.length > 1 := by omega
  refine ⟨sel, hsel, ?_, ?_, ?_, ?_⟩
  · simp only [processFrame, if_pos hlen, selectTarget, hsel]
  · rcases hres with ⟨heq, hall⟩ | ⟨_, hthr, i, j, hij, htot, _, _, _⟩
    · constructor
      · intro hgt
        rw [heq] at hgt
        exact absurd hgt (not_lt.mpr hT)
      · rintro ⟨i, j, s, hij, hs, hgt⟩
        rcases hall i j s hij hs with h0 | h0
        · exact absurd hgt (not_lt.mpr (le_trans h0 hT))
        · exact absurd hgt (not_lt.mpr h0)
    · exact ⟨fun _ => ⟨i, j, sel.highScore, hij, htot, hthr⟩, fun _ => hthr⟩
  · intro hnot
    rcases hres with ⟨heq, _⟩ | ⟨_, hthr, _⟩
    · exact heq
    · exact absurd hthr hnot
  · intro hgt
    rcases hres with ⟨heq, _⟩ | ⟨_, _, i, j, hij, htot, hbox, hall, hbefore⟩
    · rw [heq] at hgt
      exact absurd hgt (not_lt.mpr hT)
    · exact ⟨i, j, hij, htot, hbox, hall, hbefore⟩

/-- Witness of C9: the two-rect frame `[Rect(12,2,6,13), Rect(-16,-3,6,7)]`,
whose single pair totals `500`. -/
theorem selectTarget_first_maximal_witness :
    2 ≤ [Rect.mk 12 2 6 13, Rect.mk (-16) (-3) 6 7].length ∧
    (∀ i j, i < j → j < [Rect.mk 12 2 6 13, Rect.mk (-16) (-3) 6 7].length →
      ∃ s, pairTotal [Rect.mk 12 2 6 13, Rect.mk (-16) (-3) 6 7] i j = some s) ∧
    ∃ sel, selectTarget [Rect.mk 12 2 6 13, Rect.mk (-16) (-3) 6 7] = some sel ∧
      processFrame (3 / 8) [Rect.mk 12 2 6 13, Rect.mk (-16) (-3) 6 7] Latch.init =
        some { centerX := centerXOf sel.target, distance := localDistance (3 / 8) sel.target } ∧
      ((SCORE_THRESHOLD : ℚ) < sel.highScore ↔
        ∃ i j s, i < j ∧
          pairTotal [Rect.mk 12 2 6 13, Rect.mk (-16) (-3) 6 7] i j = some s ∧
          (SCORE_THRESHOLD : ℚ) < s) ∧
      (¬ (SCORE_THRESHOLD : ℚ) < sel.highScore →
        sel = { highScore := 0, target := boundingRect.zero }) ∧
      ((SCORE_THRESHOLD : ℚ) < sel.highScore →
        ∃ i j, i < j ∧
          pairTotal [Rect.mk 12 2 6 13, Rect.mk (-16) (-3) 6 7] i j = some sel.highScore ∧
          pairBox [Rect.mk 12 2 6 13, Rect.mk (-16) (-3) 6 7] i j = some sel.target ∧
          (∀ i' j' s, i' < j' →
            pairTotal [Rect.mk 12 2 6 13, Rect.mk (-16) (-3) 6 7] i' j' = some s →
            s ≤ sel.highScore) ∧
          (∀ i' j' s, i' < j' → (i' < i ∨ (i' = i ∧ j' < j)) →
            pairTotal [Rect.mk 12 2 6 13, Rect.mk (-16) (-3) 6 7] i' j' = some s →
            s < sel.highScore)) := by
  have hdef : ∀ i j, i < j → j < [Rect.mk 12 2 6 13, Rect.mk (-16) (-3) 6 7].length →
      ∃ s, pairTotal [Rect.mk 12 2 6 13, Rect.mk (-16) (-3) 6 7] i j = some s := by
    intro i j hij hj
    have hj1 : j = 1 := by simp at hj; omega
    have hi0 : i = 0 := by omega
    subst hj1; subst hi0
    refine ⟨500, ?_⟩
    simp +decide [pairTotal, scoreTotal, boundingRatioScore, contourWidthScore, topEdgeScore,
      leftSpacingScore, widthRatioScore, heightRatioScore, boundingRect.ofRects, cdiv,
      scoreOfInt_eq]
    norm_num
  exact ⟨by decide, hdef,
    selectTarget_first_maximal (3 / 8) Latch.init
      [Rect.mk 12 2 6 13, Rect.mk (-16) (-3) 6 7] (by decide) hdef⟩

/-- C8 as stated fails: the total of `(Rect(100,50,10,40), Rect(130,50,15,40))`
is `300` and that of the swapped pair is `400`; and the frame
`[Rect(12,2,6,13), Rect(-16,-3,6,7)]` marks its pair with total `500` while
the same frame in the other order marks nothing. -/
theorem scoreTotal_not_symmetric :
    scoreTotal (Rect.mk 100 50 10 40) (Rect.mk 130 50 15 40) = some 300 ∧
    scoreTotal (Rect.mk 130 50 15 40) (Rect.mk 100 50 10 40) = some 400 ∧
    List.Perm [Rect.mk 12 2 6 13, Rect.mk (-16) (-3) 6 7]
      [Rect.mk (-16) (-3) 6 7, Rect.mk 12 2 6 13] ∧
    selectTarget [Rect.mk 12 2 6 13, Rect.mk (-16) (-3) 6 7] =
      some { highScore := 500, target := { top := 2, bottom := 15, left := 12, right := 18 } } ∧
    selectTarget [Rect.mk (-16) (-3) 6 7, Rect.mk 12 2 6 13] =
      some { highScore := 0, target := boundingRect.zero } := by
  refine ⟨?_, ?_, by decide, ?_, ?_⟩ <;>
    simp +decide [selectTarget, outerLoop, innerLoop, mark, scoreTotal, boundingRatioScore,
      contourWidthScore, topEdgeScore, leftSpacingScore, widthRatioScore, heightRatioScore,
      boundingRect.ofRects, cdiv, scoreOfInt_eq, boundingRect.zero, SCORE_THRESHOLD] <;>
    norm_num

theorem pairTotal_eq_some_iff (l : List Rect) (i j : Nat) (s : ℚ) :
    pairTotal l i j = some s ↔
      ∃ a b, l[i]? = some a ∧ l[j]? = some b ∧ scoreTotal a b = some s := by
  unfold pairTotal
  cases hi : l[i]? with
  | none => simp
  | some a =>
    cases hj : l[j]? with
    | none => simp
    | some b => simp

theorem pairBox_eq_some_iff (l : List Rect) (i j : Nat) (B : boundingRect) :
    pairBox l i j = some B ↔
      ∃ a b, l[i]? = some a ∧ l[j]? = some b ∧ boundingRect.ofRects a b = B := by
  unfold pairBox
  cases hi : l[i]? with
  | none => simp
  | some a =>
    cases hj : l[j]? with
    | none => simp
    | some b => simp

/-- A pair of a permuted list is a pair of the list itself, in one of the two
orders. -/
theorem perm_pair_transfer (l l' : List Rect) (hperm : l.Perm l') (i' j' : Nat)
    (hij : i' < j') (a b : Rect) (ha : l'[i']? = some a) (hb : l'[j']? = some b) :
    ∃ i j : Nat, i < j ∧
      ((l[i]? = some a ∧ l[j]? = some b) ∨ (l[i]? = some b ∧ l[j]? = some a)) := by
  by_contra hno
  push_neg at hno
  have hp : l.Pairwise (fun x y => ¬ ((x = a ∧ y = b) ∨ (x = b ∧ y = a))) := by
    rw [List.pairwise_iff_getElem]
    intro i j hi hj hlt hR
    have h := hno i j hlt
    rw [List.getElem?_eq_getElem hi, List.getElem?_eq_getElem hj] at h
    rcases hR with ⟨h1, h2⟩ | ⟨h1, h2⟩
    · exact h.1 (by rw [h1]) (by rw [h2])
    · exact h.2 (by rw [h1]) (by rw [h2])
  have hsymm : ∀ {x y : Rect}, ¬ ((x = a ∧ y = b) ∨ (x = b ∧ y = a)) →
      ¬ ((y = a ∧ x = b) ∨ (y = b ∧ x = a)) := by
    intro x y hxy hyx
    rcases hyx with ⟨h1, h2⟩ | ⟨h1, h2⟩
    · exact hxy (Or.inr ⟨h2, h1⟩)
    · exact hxy (Or.inl ⟨h2, h1⟩)
  have hp' := (List.Perm.pairwise_iff hsymm hperm).mp hp
  rw [List.pairwise_iff_getElem] at hp'
  obtain ⟨hi', hai⟩ := List.getElem?_eq_some.mp ha
  obtain ⟨hj', hbj⟩ := List.getElem?_eq_some.mp hb
  exact hp' i' j' hi' hj' hij (Or.inl ⟨hai, hbj⟩)

/-- The two outcomes of a pair search that ends: nothing marked, or the first
maximal pair marked. -/
theorem selectTarget_cases (l : List Rect) (sel : Selection)
    (hsel : selectTarget l = some sel) :
    (sel = { highScore := 0, target := boundingRect.zero } ∧
        ∀ i j s, i < j → pairTotal l i j = some s → s ≤ (SCORE_THRESHOLD : ℚ)) ∨
      ((SCORE_THRESHOLD : ℚ) < sel.highScore ∧
        ∃ i j, i < j ∧ pairTotal l i j = some sel.highScore ∧
          pairBox l i j = some sel.target ∧
          (∀ i' j' s, i' < j' → pairTotal l i' j' = some s → s ≤ sel.highScore) ∧
          (∀ i' j' s, i' < j' → (i' < i ∨ (i' = i ∧ j' < j)) →
            pairTotal l i' j' = some s → s < sel.highScore)) := by
  have hD : ∀ i j, i < j → j < l.length → ∃ s, pairTotal l i j = some s := by
    rw [defined_iff_pairwise, ← outerLoop_isSome l { highScore := 0, target := boundingRect.zero }]
    have : outerLoop l { highScore := 0, target := boundingRect.zero } = some sel := hsel
    rw [this]; rfl
  obtain ⟨x, hx, hres⟩ := outerLoop_spec l { highScore := 0, target := boundingRect.zero } hD
  have e : x = sel := Option.some.inj (hx.symm.trans hsel)
  subst e
  have hT : (0 : ℚ) ≤ (SCORE_THRESHOLD : ℚ) := by simp [SCORE_THRESHOLD]
  rcases hres with ⟨heq, hall⟩ | ⟨_, hthr, i, j, hij, htot, hbox, hall, hbefore⟩
  · left
    refine ⟨heq, ?_⟩
    intro i j s hij hs
    rcases hall i j s hij hs with h0 | h0
    · exact le_trans h0 hT
    · exact h0
  · right
    exact ⟨hthr, i, j, hij, htot, hbox, hall, hbefore⟩

/-- The winner of a permutation of a list of rects of one width and one
height is the box of a pair of the list itself that has the same total. -/
theorem selectTarget_perm_winner (w h : Int) (l l' : List Rect) (hperm : l.Perm l')
    (hsz : ∀ r ∈ l, r.width = w ∧ r.height = h) (sel' : Selection)
    (hsel' : selectTarget l' = some sel')
    (hthr : (SCORE_THRESHOLD : ℚ) < sel'.highScore) :
    ∃ i j, i < j ∧ pairTotal l i j = some sel'.highScore ∧
      pairBox l i j = some sel'.target := by
  rcases selectTarget_cases l' sel' hsel' with ⟨heq, _⟩ | ⟨_, i', j', hij', htot, hbox, _, _⟩
  · rw [heq] at hthr
    have hT : (0 : ℚ) ≤ (SCORE_THRESHOLD : ℚ) := by simp [SCORE_THRESHOLD]
    exact absurd hthr (not_lt.mpr hT)
  · obtain ⟨a, b, ha, hb, hs⟩ := (pairTotal_eq_some_iff l' i' j' _).mp htot
    obtain ⟨a2, b2, ha2, hb2, hB⟩ := (pairBox_eq_some_iff l' i' j' _).mp hbox
    have ea : a2 = a := Option.some.inj (ha2.symm.trans ha)
    have eb : b2 = b := Option.some.inj (hb2.symm.trans hb)
    subst ea; subst eb
    obtain ⟨i, j, hij, hcase⟩ := perm_pair_transfer l l' hperm i' j' hij' a2 b2 ha hb
    refine ⟨i, j, hij, ?_⟩
    rcases hcase with ⟨h1, h2⟩ | ⟨h1, h2⟩
    · exact ⟨(pairTotal_eq_some_iff l i j _).mpr ⟨a2, b2, h1, h2, hs⟩,
        (pairBox_eq_some_iff l i j _).mpr ⟨a2, b2, h1, h2, hB⟩⟩
    · have hb_mem : b2 ∈ l := List.getElem?_mem h1
      have ha_mem : a2 ∈ l := List.getElem?_mem h2
      have e1 := hsz a2 ha_mem
      have e2 := hsz b2 hb_mem
      have hcomm : scoreTotal b2 a2 = scoreTotal a2 b2 :=
        scoreTotal_comm b2 a2 (by rw [e1.1, e2.1]) (by rw [e1.2, e2.2])
      exact ⟨(pairTotal_eq_some_iff l i j _).mpr ⟨b2, a2, h1, h2, by rw [hcomm, hs]⟩,
        (pairBox_eq_some_iff l i j _).mpr
          ⟨b2, a2, h1, h2, by rw [boundingRect_ofRects_comm b2 a2, hB]⟩⟩

/-- C8 as amended: for a candidate list whose rects all have one width and
one height, every permutation of the list gives the same outcome of the pair
search up to ties: the same `highScore` (hence a pair is marked in one order
iff in the other, and no result in one order iff in the other); when nothing
is marked both orders end in the same default selection; when a pair is
marked, the winner of either order is the box of a pair `i < j` of the
original list whose total is the maximum over all its pairs, and when only one
pair of the list attains that maximum both orders end with the same `target`.
For any two rects of the list the six-score total of `(r1, r2)` equals that of
`(r2, r1)`. -/
theorem selectTarget_perm_same_size (w h : Int) (l l' : List Rect) (hperm : l.Perm l')
    (hsz : ∀ r ∈ l, r.width = w ∧ r.height = h) :
    (selectTarget l).map Selection.highScore = (selectTarget l').map Selection.highScore ∧
    (∀ r1 ∈ l, ∀ r2 ∈ l, scoreTotal r1 r2 = scoreTotal r2 r1) ∧
    (∀ sel sel' : Selection, selectTarget l = some sel → selectTarget l' = some sel' →
      sel'.highScore = sel.highScore ∧
      (¬ (SCORE_THRESHOLD : ℚ) < sel.highScore → sel' = sel) ∧
      ((SCORE_THRESHOLD : ℚ) < sel.highScore →
        (∃ i j, i < j ∧ pairTotal l i j = some sel.highScore ∧
          pairBox l i j = some sel.target) ∧
        (∃ i j, i < j ∧ pairTotal l i j = some sel.highScore ∧
          pairBox l i j = some sel'.target) ∧
        (∀ i j s, i < j → pairTotal l i j = some s → s ≤ sel.highScore) ∧
        ((∀ i j i' j', i < j → i' < j' → pairTotal l i j = some sel.highScore →
            pairTotal l i' j' = some sel.highScore → i = i' ∧ j = j') →
          sel'.target = sel.target))) := by
  have hsz' : ∀ r ∈ l', r.width = w ∧ r.height = h :=
    fun r hr => hsz r (hperm.mem_iff.mpr hr)
  have hT : (0 : ℚ) ≤ (SCORE_THRESHOLD : ℚ) := by simp [SCORE_THRESHOLD]
  have heq : ∀ sel sel' : Selection, selectTarget l = some sel → selectTarget l' = some sel' →
      sel'.highScore = sel.highScore := by
    intro sel sel' hs hs'
    exact le_antisymm (selectTarget_perm_le w h l' l hperm.symm hsz' sel' sel hs' hs)
      (selectTarget_perm_le w h l l' hperm hsz sel sel' hs hs')
  refine ⟨?_, ?_, ?_⟩
  · have hiff : (selectTarget l).isSome = true ↔ (selectTarget l').isSome = true := by
      unfold selectTarget
      rw [outerLoop_isSome, outerLoop_isSome]
      exact ⟨pairwise_scoreTotal_perm (fun o => o.isSome = true) w h l l' hperm hsz,
        pairwise_scoreTotal_perm (fun o => o.isSome = true) w h l' l hperm.symm hsz'⟩
    cases hs : selectTarget l with
    | none =>
      cases hs' : selectTarget l' with
      | none => rfl
      | some sel' =>
        rw [hs, hs'] at hiff
        exact absurd (hiff.mpr rfl) (by simp)
    | some sel =>
      cases hs' : selectTarget l' with
      | none =>
        rw [hs, hs'] at hiff
        exact absurd (hiff.mp rfl) (by simp)
      | some sel' =>
        simp only [Option.map_some']
        rw [heq sel sel' hs hs']
  · intro r1 h1 r2 h2
    have e1 := hsz r1 h1
    have e2 := hsz r2 h2
    exact scoreTotal_comm r1 r2 (by rw [e1.1, e2.1]) (by rw [e1.2, e2.2])
  · intro sel sel' hs hs'
    have hhs := heq sel sel' hs hs'
    refine ⟨hhs, ?_, ?_⟩
    · intro hnot
      have hd : sel = { highScore := 0, target := boundingRect.zero } := by
        rcases selectTarget_cases l sel hs with ⟨hd, _⟩ | ⟨hthr, _⟩
        · exact hd
        · exact absurd hthr hnot
      have hd' : sel' = { highScore := 0, target := boundingRect.zero } := by
        rcases selectTarget_cases l' sel' hs' with ⟨hd', _⟩ | ⟨hthr', _⟩
        · exact hd'
        · rw [hhs] at hthr'
          exact absurd hthr' hnot
      rw [hd, hd']
    · intro hthr
      have hown : ∃ i j, i < j ∧ pairTotal l i j = some sel.highScore ∧
          pairBox l i j = some sel.target ∧
          (∀ i' j' s, i' < j' → pairTotal l i' j' = some s → s ≤ sel.highScore) := by
        rcases selectTarget_cases l sel hs with ⟨hd, _⟩ | ⟨_, i, j, hij, htot, hbox, hall, _⟩
        · rw [hd] at hthr
          exact absurd hthr (not_lt.mpr hT)
        · exact ⟨i, j, hij, htot, hbox, hall⟩
      obtain ⟨i0, j0, hij0, htot0, hbox0, hall⟩ := hown
      have hthr' : (SCORE_THRESHOLD : ℚ) < sel'.highScore := by rw [hhs]; exact hthr
      obtain ⟨i1, j1, hij1, htot1, hbox1⟩ :=
        selectTarget_perm_winner w h l l' hperm hsz sel' hs' hthr'
      rw [hhs] at htot1
      refine ⟨⟨i0, j0, hij0, htot0, hbox0⟩, ⟨i1, j1, hij1, htot1, hbox1⟩, hall, ?_⟩
      intro huniq
      obtain ⟨ei, ej⟩ := huniq i0 j0 i1 j1 hij0 hij1 htot0 htot1
      subst ei; subst ej
      exact Option.some.inj (hbox1.symm.trans hbox0)

/-- Witness of C8 as amended: three rects of width `6` and height `13` and the
reversed list; both orders mark the pair `Rect(12,2,6,13)`, `Rect(-16,-3,6,13)`
with total `500` and the box `{top 2, bottom 15, left 12, right 18}`. -/
theorem selectTarget_perm_same_size_witness :
    List.Perm [Rect.mk 12 2 6 13, Rect.mk (-16) (-3) 6 13, Rect.mk 100 50 6 13]
      [Rect.mk 100 50 6 13, Rect.mk (-16) (-3) 6 13, Rect.mk 12 2 6 13] ∧
    (∀ r ∈ [Rect.mk 12 2 6 13, Rect.mk (-16) (-3) 6 13, Rect.mk 100 50 6 13],
      r.width = 6 ∧ r.height = 13) ∧
    selectTarget [Rect.mk 12 2 6 13, Rect.mk (-16) (-3) 6 13, Rect.mk 100 50 6 13] =
      some { highScore := 500, target := { top := 2, bottom := 15, left := 12, right := 18 } } ∧
    selectTarget [Rect.mk 100 50 6 13, Rect.mk (-16) (-3) 6 13, Rect.mk 12 2 6 13] =
      some { highScore := 500, target := { top := 2, bottom := 15, left := 12, right := 18 } } ∧
    ((selectTarget [Rect.mk 12 2 6 13, Rect.mk (-16) (-3) 6 13, Rect.mk 100 50 6 13]).map
        Selection.highScore =
      (selectTarget [Rect.mk 100 50 6 13, Rect.mk (-16) (-3) 6 13, Rect.mk 12 2 6 13]).map
        Selection.highScore ∧
    (∀ r1 ∈ [Rect.mk 12 2 6 13, Rect.mk (-16) (-3) 6 13, Rect.mk 100 50 6 13],
      ∀ r2 ∈ [Rect.mk 12 2 6 13, Rect.mk (-16) (-3) 6 13, Rect.mk 100 50 6 13],
        scoreTotal r1 r2 = scoreTotal r2 r1) ∧
    (∀ sel sel' : Selection,
      selectTarget [Rect.mk 12 2 6 13, Rect.mk (-16) (-3) 6 13, Rect.mk 100 50 6 13] =
        some sel →
      selectTarget [Rect.mk 100 50 6 13, Rect.mk (-16) (-3) 6 13, Rect.mk 12 2 6 13] =
        some sel' →
      sel'.highScore = sel.highScore ∧
      (¬ (SCORE_THRESHOLD : ℚ) < sel.highScore → sel' = sel) ∧
      ((SCORE_THRESHOLD : ℚ) < sel.highScore →
        (∃ i j, i < j ∧
          pairTotal [Rect.mk 12 2 6 13, Rect.mk (-16) (-3) 6 13, Rect.mk 100 50 6 13] i j =
            some sel.highScore ∧
          pairBox [Rect.mk 12 2 6 13, Rect.mk (-16) (-3) 6 13, Rect.mk 100 50 6 13] i j =
            some sel.target) ∧
        (∃ i j, i < j ∧
          pairTotal [Rect.mk 12 2 6 13, Rect.mk (-16) (-3) 6 13, Rect.mk 100 50 6 13] i j =
            some sel.highScore ∧
          pairBox [Rect.mk 12 2 6 13, Rect.mk (-16) (-3) 6 13, Rect.mk 100 50 6 13] i j =
            some sel'.target) ∧
        (∀ i j s, i < j →
          pairTotal [Rect.mk 12 2 6 13, Rect.mk (-16) (-3) 6 13, Rect.mk 100 50 6 13] i j =
            some s → s ≤ sel.highScore) ∧
        ((∀ i j i' j', i < j → i' < j' →
            pairTotal [Rect.mk 12 2 6 13, Rect.mk (-16) (-3) 6 13, Rect.mk 100 50 6 13] i j =
              some sel.highScore →
            pairTotal [Rect.mk 12 2 6 13, Rect.mk (-16) (-3) 6 13, Rect.mk 100 50 6 13] i' j' =
              some sel.highScore → i = i' ∧ j = j') →
          sel'.target = sel.target)))) := by
  refine ⟨by decide, by decide, ?_, ?_,
    selectTarget_perm_same_size 6 13
      [Rect.mk 12 2 6 13, Rect.mk (-16) (-3) 6 13, Rect.mk 100 50 6 13]
      [Rect.mk 100 50 6 13, Rect.mk (-16) (-3) 6 13, Rect.mk 12 2 6 13]
      (by decide) (by decide)⟩ <;>
    simp +decide [selectTarget, outerLoop, innerLoop, mark, scoreTotal, boundingRatioScore,
      contourWidthScore, topEdgeScore, leftSpacingScore, widthRatioScore, heightRatioScore,
      boundingRect.ofRects, cdiv, scoreOfInt_eq, boundingRect.zero, SCORE_THRESHOLD] <;>
    norm_num

/-! ## Integer ratios -/

/-- C11: for widths `10` and `15` the code returns `0` where the exact quotient
`2/3` scores `200/3`, and for widths `15` and `10` it returns `100` where the
exact quotient `3/2` scores `50`; the same for heights. -/
theorem ratioScore_integer_division :
    widthRatioScore (Rect.mk 0 0 10 40) (Rect.mk 30 0 15 40) = some 0 ∧
    ratioToScore ((10 : ℚ) / 15) = 200 / 3 ∧
    widthRatioScore (Rect.mk 0 0 15 40) (Rect.mk 30 0 10 40) = some 100 ∧
    ratioToScore ((15 : ℚ) / 10) = 50 ∧
    heightRatioScore (Rect.mk 0 0 10 10) (Rect.mk 30 0 10 15) = some 0 ∧
    heightRatioScore (Rect.mk 0 0 10 15) (Rect.mk 30 0 10 10) = some 100 := by
  refine ⟨?_, ?_, ?_, ?_, ?_, ?_⟩
  · simp +decide [widthRatioScore, cdiv, scoreOfInt_eq]
  · rw [ratioToScore_eq_ite]; norm_num
  · simp +decide [widthRatioScore, cdiv, scoreOfInt_eq]
  · rw [ratioToScore_eq_ite]; norm_num
  · simp +decide [heightRatioScore, cdiv, scoreOfInt_eq]
  · simp +decide [heightRatioScore, cdiv, scoreOfInt_eq]

/-- C12: for `r1 = Rect(0,0,40,10)` and `r2 = Rect(10,0,10,10)` the code
computes the box edges `left = 10`, `right = 40` and the ratio
`30 / (4*40 - 10) = 0`, so the score is `0`; with `W = right - left = 30` the
ratio `3*10 / (4*W)` is `1/4` and scores `25` (and with the width `40` of the
true enclosure it is `3/16` and scores `75/4`). -/
theorem leftSpacingScore_divisor :
    boundingRect.ofRects (Rect.mk 0 0 40 10) (Rect.mk 10 0 10 10) =
      { top := 0, bottom := 10, left := 10, right := 40 } ∧
    leftSpacingScore (Rect.mk 0 0 40 10) (Rect.mk 10 0 10 10) = some 0 ∧
    ratioToScore ((3 * |(10 : ℚ) - 0|) / (4 * (40 - 10))) = 25 ∧
    ratioToScore ((3 * |(10 : ℚ) - 0|) / (4 * (40 - 0))) = 75 / 4 := by
  refine ⟨by decide, ?_, ?_, ?_⟩
  · simp +decide [leftSpacingScore, boundingRect.ofRects, cdiv, scoreOfInt_eq]
  · rw [ratioToScore_eq_ite]; norm_num
  · rw [ratioToScore_eq_ite]; norm_num

/-! ## Geometry of the computed box -/

/-- C14: for rects of non-negative width and height the computed box has
`bottom - top ≥ 0` and `right - left ≥ 0`. -/
theorem boundingRect_nonneg (r1 r2 : Rect) (hw1 : 0 ≤ r1.width) (hh1 : 0 ≤ r1.height)
    (hw2 : 0 ≤ r2.width) (hh2 : 0 ≤ r2.height) :
    0 ≤ (boundingRect.ofRects r1 r2).bottom - (boundingRect.ofRects r1 r2).top ∧
    0 ≤ (boundingRect.ofRects r1 r2).right - (boundingRect.ofRects r1 r2).left := by
  simp only [boundingRect.ofRects]
  omega

/-- Witness of C14: the pair `Rect(100,50,10,40)`, `Rect(130,60,10,40)`. -/
theorem boundingRect_nonneg_witness :
    (0 : Int) ≤ (Rect.mk 100 50 10 40).width ∧ (0 : Int) ≤ (Rect.mk 100 50 10 40).height ∧
    (0 : Int) ≤ (Rect.mk 130 60 10 40).width ∧ (0 : Int) ≤ (Rect.mk 130 60 10 40).height ∧
    (0 ≤ (boundingRect.ofRects (Rect.mk 100 50 10 40) (Rect.mk 130 60 10 40)).bottom -
        (boundingRect.ofRects (Rect.mk 100 50 10 40) (Rect.mk 130 60 10 40)).top ∧
      0 ≤ (boundingRect.ofRects (Rect.mk 100 50 10 40) (Rect.mk 130 60 10 40)).right -
        (boundingRect.ofRects (Rect.mk 100 50 10 40) (Rect.mk 130 60 10 40)).left) :=
  ⟨by decide, by decide, by decide, by decide,
    boundingRect_nonneg (Rect.mk 100 50 10 40) (Rect.mk 130 60 10 40)
      (by decide) (by decide) (by decide) (by decide)⟩

/-! ## The published values -/

/-- The `int` quotient by `2` is within `1/2` of the exact half. -/
theorem tdiv_two_bounds (a : Int) : a - 1 ≤ 2 * Int.tdiv a 2 ∧ 2 * Int.tdiv a 2 ≤ a + 1 := by
  rcases le_total 0 a with h | h
  · rw [Int.tdiv_eq_ediv h (by decide)]
    omega
  · have hneg : a = -(-a) := by omega
    rw [hneg, Int.neg_tdiv, Int.tdiv_eq_ediv (by omega) (by decide)]
    omega

/-- C16 as stated fails: for `left = 101`, `right = 140` the value stored is
`120`, not `120.5`; and the frame `[Rect(15,25,13,26), Rect(-28,1,9,23)]`
marks the box with `left = 15`, `right = 28` and publishes `21`, not `21.5`. -/
theorem centerX_not_midpoint :
    centerXOf { top := 0, bottom := 0, left := 101, right := 140 } = 120 ∧
    centerXOf { top := 0, bottom := 0, left := 101, right := 140 } ≠ ((101 : ℚ) + 140) / 2 ∧
    selectTarget [Rect.mk 15 25 13 26, Rect.mk (-28) 1 9 23] =
      some { highScore := 500, target := { top := 25, bottom := 51, left := 15, right := 28 } } ∧
    ∀ (t : ℚ) (latch : Latch),
      (processFrame t [Rect.mk 15 25 13 26, Rect.mk (-28) 1 9 23] latch).map Latch.centerX =
        some 21 := by
  have hsel : selectTarget [Rect.mk 15 25 13 26, Rect.mk (-28) 1 9 23] =
      some { highScore := 500,
             target := { top := 25, bottom := 51, left := 15, right := 28 } } := by
    simp +decide [selectTarget, outerLoop, innerLoop, mark, scoreTotal, boundingRatioScore,
      contourWidthScore, topEdgeScore, leftSpacingScore, widthRatioScore, heightRatioScore,
      boundingRect.ofRects, cdiv, scoreOfInt_eq, boundingRect.zero, SCORE_THRESHOLD]
    norm_num
  have h : Int.tdiv ((101 : Int) + 140) 2 = 120 := by decide
  have h' : Int.tdiv ((15 : Int) + 28) 2 = 21 := by decide
  refine ⟨?_, ?_, hsel, fun t latch => ?_⟩
  · simp only [centerXOf, h]
    norm_num
  · simp only [centerXOf, h]
    norm_num
  · have hlen : [Rect.mk 15 25 13 26, Rect.mk (-28) 1 9 23].length > 1 := by decide
    simp only [processFrame, if_pos hlen, hsel, Option.map_some', centerXOf, h']
    norm_num

/-- C16 as amended: the stored `centerX` is the `int` quotient of
`left + right` by `2`, truncated toward zero: it is
`(left + right - rem) / 2` with `rem` the C++ remainder `(left + right) % 2`,
and so differs from the real midpoint by at most `1/2`. -/
theorem centerXOf_truncated (B : boundingRect) :
    centerXOf B = (((B.left + B.right : Int) : ℚ) - ((Int.tmod (B.left + B.right) 2 : Int) : ℚ)) / 2 ∧
    |centerXOf B - ((B.left : ℚ) + (B.right : ℚ)) / 2| ≤ 1 / 2 := by
  have hdm := Int.tdiv_add_tmod (B.left + B.right) 2
  have hq : (2 : ℚ) * ((Int.tdiv (B.left + B.right) 2 : Int) : ℚ) +
      ((Int.tmod (B.left + B.right) 2 : Int) : ℚ) = ((B.left + B.right : Int) : ℚ) := by
    exact_mod_cast hdm
  have hrem : -1 ≤ Int.tmod (B.left + B.right) 2 ∧ Int.tmod (B.left + B.right) 2 ≤ 1 := by
    have hb := tdiv_two_bounds (B.left + B.right)
    omega
  have hr1 : (-1 : ℚ) ≤ ((Int.tmod (B.left + B.right) 2 : Int) : ℚ) := by exact_mod_cast hrem.1
  have hr2 : ((Int.tmod (B.left + B.right) 2 : Int) : ℚ) ≤ 1 := by exact_mod_cast hrem.2
  have hcast : ((B.left + B.right : Int) : ℚ) = (B.left : ℚ) + (B.right : ℚ) := by push_cast; ring
  constructor
  · unfold centerXOf
    linarith
  · unfold centerXOf
    rw [abs_le]
    constructor <;> linarith

/-- C17: for a positive tangent value `t` and target pixel heights
`0 < h1 < h2`, both distances are finite, equal
`0.5 * (TARGET_HEIGHT * IMG_HEIGHT / h) / t`, and the one for `h2` is strictly
smaller. -/
theorem localDistance_strictAnti (t : ℚ) (B1 B2 : boundingRect) (ht : 0 < t)
    (h1 : 0 < B1.bottom - B1.top) (h12 : B1.bottom - B1.top < B2.bottom - B2.top) :
    ∃ d1 d2 : ℚ, localDistance t B1 = Dbl.fin d1 ∧ localDistance t B2 = Dbl.fin d2 ∧
      d1 = 1 / 2 * (TARGET_HEIGHT * (IMG_HEIGHT : ℚ) / ((B1.bottom - B1.top : Int) : ℚ)) / t ∧
      d2 = 1 / 2 * (TARGET_HEIGHT * (IMG_HEIGHT : ℚ) / ((B2.bottom - B2.top : Int) : ℚ)) / t ∧
      d2 < d1 := by
  have h2 : 0 < B2.bottom - B2.top := lt_trans h1 h12
  have q1 : (0 : ℚ) < ((B1.bottom - B1.top : Int) : ℚ) := by exact_mod_cast h1
  have q12 : ((B1.bottom - B1.top : Int) : ℚ) < ((B2.bottom - B2.top : Int) : ℚ) := by
    exact_mod_cast h12
  refine ⟨_, _, ?_, ?_, rfl, rfl, ?_⟩
  · simp only [localDistance, viewHeight, if_neg (ne_of_gt h1)]
  · simp only [localDistance, viewHeight, if_neg (ne_of_gt h2)]
  · have hnum : (0 : ℚ) < TARGET_HEIGHT * (IMG_HEIGHT : ℚ) := by
      simp only [TARGET_HEIGHT, IMG_HEIGHT]; norm_num
    have hv : TARGET_HEIGHT * (IMG_HEIGHT : ℚ) / ((B2.bottom - B2.top : Int) : ℚ) <
        TARGET_HEIGHT * (IMG_HEIGHT : ℚ) / ((B1.bottom - B1.top : Int) : ℚ) :=
      div_lt_div_of_pos_left hnum q1 q12
    apply div_lt_div_of_pos_right _ ht
    linarith

/-- Witness of C17: pixel heights `40` and `80` with `t = 3/8`. -/
theorem localDistance_strictAnti_witness :
    (0 : ℚ) < 3 / 8 ∧
    0 < (boundingRect.mk 50 90 100 140).bottom - (boundingRect.mk 50 90 100 140).top ∧
    (boundingRect.mk 50 90 100 140).bottom - (boundingRect.mk 50 90 100 140).top <
      (boundingRect.mk 50 130 100 140).bottom - (boundingRect.mk 50 130 100 140).top ∧
    ∃ d1 d2 : ℚ, localDistance (3 / 8) (boundingRect.mk 50 90 100 140) = Dbl.fin d1 ∧
      localDistance (3 / 8) (boundingRect.mk 50 130 100 140) = Dbl.fin d2 ∧
      d1 = 1 / 2 * (TARGET_HEIGHT * (IMG_HEIGHT : ℚ) /
        (((boundingRect.mk 50 90 100 140).bottom - (boundingRect.mk 50 90 100 140).top : Int) : ℚ)) /
          (3 / 8) ∧
      d2 = 1 / 2 * (TARGET_HEIGHT * (IMG_HEIGHT : ℚ) /
        (((boundingRect.mk 50 130 100 140).bottom - (boundingRect.mk 50 130 100 140).top : Int) : ℚ)) /
          (3 / 8) ∧
      d2 < d1 :=
  ⟨by norm_num, by decide, by decide,
    localDistance_strictAnti (3 / 8) (boundingRect.mk 50 90 100 140)
      (boundingRect.mk 50 130 100 140) (by norm_num) (by decide) (by decide)⟩

/-! ## Ranges and values of the scores -/

theorem scoreOfInt_nonneg (n : Int) : 0 ≤ scoreOfInt n := by
  rw [scoreOfInt_eq]; split_ifs <;> norm_num

theorem scoreOfInt_le (n : Int) : scoreOfInt n ≤ 100 := by
  rw [scoreOfInt_eq]; split_ifs <;> norm_num

theorem scoreOfInt_zero_or (n : Int) : scoreOfInt n = 0 ∨ scoreOfInt n = 100 := by
  rw [scoreOfInt_eq]; split_ifs <;> simp

/-- A result of `(cdiv a b).map f` is a value of `f`. -/
theorem cdiv_map_some (a b : Int) (f : Int → ℚ) (s : ℚ) (h : (cdiv a b).map f = some s) :
    b ≠ 0 ∧ s = f (Int.tdiv a b) := by
  unfold cdiv at h
  by_cases hb : b = 0
  · simp [hb] at h
  · simp only [if_neg hb, Option.map_some', Option.some.injEq] at h
    exact ⟨hb, h.symm⟩

/-- The six scores behind a defined total. -/
theorem scoreTotal_some (r1 r2 : Rect) (s : ℚ) (h : scoreTotal r1 r2 = some s) :
    ∃ s1 s2 s3 s4 s5 s6 : ℚ,
      boundingRatioScore r1 r2 = some s1 ∧ contourWidthScore r1 r2 = some s2 ∧
      topEdgeScore r1 r2 = some s3 ∧ leftSpacingScore r1 r2 = some s4 ∧
      widthRatioScore r1 r2 = some s5 ∧ heightRatioScore r1 r2 = some s6 ∧
      s = s1 + s2 + s3 + s4 + s5 + s6 := by
  unfold scoreTotal at h
  cases h1 : boundingRatioScore r1 r2 with
  | none => simp [h1] at h
  | some s1 =>
  cases h2 : contourWidthScore r1 r2 with
  | none => simp [h1, h2] at h
  | some s2 =>
  cases h3 : topEdgeScore r1 r2 with
  | none => simp [h1, h2, h3] at h
  | some s3 =>
  cases h4 : leftSpacingScore r1 r2 with
  | none => simp [h1, h2, h3, h4] at h
  | some s4 =>
  cases h5 : widthRatioScore r1 r2 with
  | none => simp [h1, h2, h3, h4, h5] at h
  | some s5 =>
  cases h6 : heightRatioScore r1 r2 with
  | none => simp [h1, h2, h3, h4, h5, h6] at h
  | some s6 =>
    simp [h1, h2, h3, h4, h5, h6] at h
    exact ⟨s1, s2, s3, s4, s5, s6, rfl, rfl, rfl, rfl, rfl, rfl, h.symm⟩

/-- The total of six defined scores. -/
theorem scoreTotal_of_some (r1 r2 : Rect) (s1 s2 s3 s4 s5 s6 : ℚ)
    (h1 : boundingRatioScore r1 r2 = some s1) (h2 : contourWidthScore r1 r2 = some s2)
    (h3 : topEdgeScore r1 r2 = some s3) (h4 : leftSpacingScore r1 r2 = some s4)
    (h5 : widthRatioScore r1 r2 = some s5) (h6 : heightRatioScore r1 r2 = some s6) :
    scoreTotal r1 r2 = some (s1 + s2 + s3 + s4 + s5 + s6) := by
  simp [scoreTotal, h1, h2, h3, h4, h5, h6]

/-- C13: each of the six score functions, where it has a result, returns a
value in `[0, 100]`, and a pair total, where it has a result, lies in
`[0, 600]`. -/
theorem score_range (r1 r2 : Rect) :
    (∀ s, boundingRatioScore r1 r2 = some s → 0 ≤ s ∧ s ≤ 100) ∧
    (∀ s, contourWidthScore r1 r2 = some s → 0 ≤ s ∧ s ≤ 100) ∧
    (∀ s, topEdgeScore r1 r2 = some s → 0 ≤ s ∧ s ≤ 100) ∧
    (∀ s, leftSpacingScore r1 r2 = some s → 0 ≤ s ∧ s ≤ 100) ∧
    (∀ s, widthRatioScore r1 r2 = some s → 0 ≤ s ∧ s ≤ 100) ∧
    (∀ s, heightRatioScore r1 r2 = some s → 0 ≤ s ∧ s ≤ 100) ∧
    (∀ s, scoreTotal r1 r2 = some s → 0 ≤ s ∧ s ≤ 600) := by
  have key : ∀ (a b : Int) (f : Int → ℚ), (∀ q, 0 ≤ f q ∧ f q ≤ 100) →
      ∀ s, (cdiv a b).map f = some s → 0 ≤ s ∧ s ≤ 100 := by
    intro a b f hf s hs
    rw [(cdiv_map_some a b f s hs).2]
    exact hf _
  have hf1 : ∀ q, 0 ≤ scoreOfInt q ∧ scoreOfInt q ≤ 100 :=
    fun q => ⟨scoreOfInt_nonneg q, scoreOfInt_le q⟩
  have hf2 : ∀ q : Int, 0 ≤ (fun q => scoreOfInt (1 + q)) q ∧
      (fun q => scoreOfInt (1 + q)) q ≤ 100 :=
    fun q => ⟨scoreOfInt_nonneg _, scoreOfInt_le _⟩
  have b1 : ∀ s, boundingRatioScore r1 r2 = some s → 0 ≤ s ∧ s ≤ 100 :=
    fun s hs => key _ _ _ hf1 s hs
  have b2 : ∀ s, contourWidthScore r1 r2 = some s → 0 ≤ s ∧ s ≤ 100 :=
    fun s hs => key _ _ _ hf1 s hs
  have b3 : ∀ s, topEdgeScore r1 r2 = some s → 0 ≤ s ∧ s ≤ 100 :=
    fun s hs => key _ _ _ hf2 s hs
  have b4 : ∀ s, leftSpacingScore r1 r2 = some s → 0 ≤ s ∧ s ≤ 100 :=
    fun s hs => key _ _ _ hf1 s hs
  have b5 : ∀ s, widthRatioScore r1 r2 = some s → 0 ≤ s ∧ s ≤ 100 :=
    fun s hs => key _ _ _ hf1 s hs
  have b6 : ∀ s, heightRatioScore r1 r2 = some s → 0 ≤ s ∧ s ≤ 100 :=
    fun s hs => key _ _ _ hf1 s hs
  refine ⟨b1, b2, b3, b4, b5, b6, ?_⟩
  intro s hs
  obtain ⟨s1, s2, s3, s4, s5, s6, h1, h2, h3, h4, h5, h6, hsum⟩ := scoreTotal_some r1 r2 s hs
  have c1 := b1 s1 h1
  have c2 := b2 s2 h2
  have c3 := b3 s3 h3
  have c4 := b4 s4 h4
  have c5 := b5 s5 h5
  have c6 := b6 s6 h6
  rw [hsum]
  constructor <;> linarith [c1.1, c1.2, c2.1, c2.2, c3.1, c3.2, c4.1, c4.2, c5.1, c5.2, c6.1, c6.2]

/-- Witness of C13: the pair `Rect(100,50,10,40)`, `Rect(130,50,10,40)`, whose
total is `300`. -/
theorem score_range_witness :
    scoreTotal (Rect.mk 100 50 10 40) (Rect.mk 130 50 10 40) = some 300 ∧
    ((0 : ℚ) ≤ 300 ∧ (300 : ℚ) ≤ 600) := by
  have h : scoreTotal (Rect.mk 100 50 10 40) (Rect.mk 130 50 10 40) = some 300 := by
    simp +decide [scoreTotal, boundingRatioScore, contourWidthScore, topEdgeScore,
      leftSpacingScore, widthRatioScore, heightRatioScore, boundingRect.ofRects, cdiv,
      scoreOfInt_eq]
    norm_num
  exact ⟨h, (score_range (Rect.mk 100 50 10 40) (Rect.mk 130 50 10 40)).2.2.2.2.2.2 300 h⟩

/-! ## Rects inside the image: divisors and totals -/

/-- For two rects with `x ≥ 0`, `width > 0` and `height > 0` the four divisors
built from the computed box are not zero. -/
theorem box_divisors_ne_zero (r1 r2 : Rect) (hx1 : 0 ≤ r1.x) (hw1 : 0 < r1.width)
    (hh1 : 0 < r1.height) (hx2 : 0 ≤ r2.x) (hw2 : 0 < r2.width) (hh2 : 0 < r2.height) :
    2 * ((boundingRect.ofRects r1 r2).left - (boundingRect.ofRects r1 r2).right) ≠ 0 ∧
    (boundingRect.ofRects r1 r2).right - (boundingRect.ofRects r1 r2).left ≠ 0 ∧
    (boundingRect.ofRects r1 r2).top - (boundingRect.ofRects r1 r2).bottom ≠ 0 ∧
    4 * (boundingRect.ofRects r1 r2).right - (boundingRect.ofRects r1 r2).left ≠ 0 := by
  simp only [boundingRect.ofRects]
  omega

/-- With non-zero divisors every score function returns the score of its
truncated quotient. -/
theorem scores_of_ne_zero (r1 r2 : Rect)
    (d1 : 2 * ((boundingRect.ofRects r1 r2).left - (boundingRect.ofRects r1 r2).right) ≠ 0)
    (d2 : (boundingRect.ofRects r1 r2).right - (boundingRect.ofRects r1 r2).left ≠ 0)
    (d3 : (boundingRect.ofRects r1 r2).top - (boundingRect.ofRects r1 r2).bottom ≠ 0)
    (d4 : 4 * (boundingRect.ofRects r1 r2).right - (boundingRect.ofRects r1 r2).left ≠ 0)
    (d5 : r2.width ≠ 0) (d6 : r2.height ≠ 0) :
    boundingRatioScore r1 r2 = some (scoreOfInt (Int.tdiv
      ((boundingRect.ofRects r1 r2).top - (boundingRect.ofRects r1 r2).bottom)
      (2 * ((boundingRect.ofRects r1 r2).left - (boundingRect.ofRects r1 r2).right)))) ∧
    contourWidthScore r1 r2 = some (scoreOfInt (Int.tdiv (r1.width * 4)
      ((boundingRect.ofRects r1 r2).right - (boundingRect.ofRects r1 r2).left))) ∧
    topEdgeScore r1 r2 = some (scoreOfInt (1 + Int.tdiv (r1.y - r2.y)
      ((boundingRect.ofRects r1 r2).top - (boundingRect.ofRects r1 r2).bottom))) ∧
    leftSpacingScore r1 r2 = some (scoreOfInt (Int.tdiv (|r2.x - r1.x| * 3)
      (4 * (boundingRect.ofRects r1 r2).right - (boundingRect.ofRects r1 r2).left))) ∧
    widthRatioScore r1 r2 = some (scoreOfInt (Int.tdiv r1.width r2.width)) ∧
    heightRatioScore r1 r2 = some (scoreOfInt (Int.tdiv r1.height r2.height)) := by
  refine ⟨?_, ?_, ?_, ?_, ?_, ?_⟩
  · simp only [boundingRatioScore, cdiv, if_neg d1, Option.map_some']
  · simp only [contourWidthScore, cdiv, if_neg d2, Option.map_some']
  · simp only [topEdgeScore, cdiv, if_neg d3, Option.map_some']
  · simp only [leftSpacingScore, cdiv, if_neg d4, Option.map_some']
  · simp only [widthRatioScore, cdiv, if_neg d5, Option.map_some']
  · simp only [heightRatioScore, cdiv, if_neg d6, Option.map_some']

/-- C19: for two rects with `x ≥ 0`, `width > 0` and `height > 0` the six
divisors `2*(left - right)`, `right - left`, `top - bottom`, `4*right - left`,
`r2.width` and `r2.height` are not zero, so each of the six score functions
and the total have a result. -/
theorem division_safe (r1 r2 : Rect) (hx1 : 0 ≤ r1.x) (hw1 : 0 < r1.width)
    (hh1 : 0 < r1.height) (hx2 : 0 ≤ r2.x) (hw2 : 0 < r2.width) (hh2 : 0 < r2.height) :
    (2 * ((boundingRect.ofRects r1 r2).left - (boundingRect.ofRects r1 r2).right) ≠ 0 ∧
      (boundingRect.ofRects r1 r2).right - (boundingRect.ofRects r1 r2).left ≠ 0 ∧
      (boundingRect.ofRects r1 r2).top - (boundingRect.ofRects r1 r2).bottom ≠ 0 ∧
      4 * (boundingRect.ofRects r1 r2).right - (boundingRect.ofRects r1 r2).left ≠ 0 ∧
      r2.width ≠ 0 ∧ r2.height ≠ 0) ∧
    (∃ s, boundingRatioScore r1 r2 = some s) ∧ (∃ s, contourWidthScore r1 r2 = some s) ∧
    (∃ s, topEdgeScore r1 r2 = some s) ∧ (∃ s, leftSpacingScore r1 r2 = some s) ∧
    (∃ s, widthRatioScore r1 r2 = some s) ∧ (∃ s, heightRatioScore r1 r2 = some s) ∧
    (∃ s, scoreTotal r1 r2 = some s) := by
  obtain ⟨d1, d2, d3, d4⟩ := box_divisors_ne_zero r1 r2 hx1 hw1 hh1 hx2 hw2 hh2
  have d5 : r2.width ≠ 0 := ne_of_gt hw2
  have d6 : r2.height ≠ 0 := ne_of_gt hh2
  obtain ⟨e1, e2, e3, e4, e5, e6⟩ := scores_of_ne_zero r1 r2 d1 d2 d3 d4 d5 d6
  exact ⟨⟨d1, d2, d3, d4, d5, d6⟩, ⟨_, e1⟩, ⟨_, e2⟩, ⟨_, e3⟩, ⟨_, e4⟩, ⟨_, e5⟩, ⟨_, e6⟩,
    ⟨_, scoreTotal_of_some r1 r2 _ _ _ _ _ _ e1 e2 e3 e4 e5 e6⟩⟩

/-- Witness of C19: the pair `Rect(100,50,10,40)`, `Rect(130,50,10,40)`. -/
theorem division_safe_witness :
    (0 : Int) ≤ (Rect.mk 100 50 10 40).x ∧ (0 : Int) < (Rect.mk 100 50 10 40).width ∧
    (0 : Int) < (Rect.mk 100 50 10 40).height ∧ (0 : Int) ≤ (Rect.mk 130 50 10 40).x ∧
    (0 : Int) < (Rect.mk 130 50 10 40).width ∧ (0 : Int) < (Rect.mk 130 50 10 40).height ∧
    ((2 * ((boundingRect.ofRects (Rect.mk 100 50 10 40) (Rect.mk 130 50 10 40)).left -
          (boundingRect.ofRects (Rect.mk 100 50 10 40) (Rect.mk 130 50 10 40)).right) ≠ 0 ∧
        (boundingRect.ofRects (Rect.mk 100 50 10 40) (Rect.mk 130 50 10 40)).right -
          (boundingRect.ofRects (Rect.mk 100 50 10 40) (Rect.mk 130 50 10 40)).left ≠ 0 ∧
        (boundingRect.ofRects (Rect.mk 100 50 10 40) (Rect.mk 130 50 10 40)).top -
          (boundingRect.ofRects (Rect.mk 100 50 10 40) (Rect.mk 130 50 10 40)).bottom ≠ 0 ∧
        4 * (boundingRect.ofRects (Rect.mk 100 50 10 40) (Rect.mk 130 50 10 40)).right -
          (boundingRect.ofRects (Rect.mk 100 50 10 40) (Rect.mk 130 50 10 40)).left ≠ 0 ∧
        (Rect.mk 130 50 10 40).width ≠ 0 ∧ (Rect.mk 130 50 10 40).height ≠ 0) ∧
      (∃ s, boundingRatioScore (Rect.mk 100 50 10 40) (Rect.mk 130 50 10 40) = some s) ∧
      (∃ s, contourWidthScore (Rect.mk 100 50 10 40) (Rect.mk 130 50 10 40) = some s) ∧
      (∃ s, topEdgeScore (Rect.mk 100 50 10 40) (Rect.mk 130 50 10 40) = some s) ∧
      (∃ s, leftSpacingScore (Rect.mk 100 50 10 40) (Rect.mk 130 50 10 40) = some s) ∧
      (∃ s, widthRatioScore (Rect.mk 100 50 10 40) (Rect.mk 130 50 10 40) = some s) ∧
      (∃ s, heightRatioScore (Rect.mk 100 50 10 40) (Rect.mk 130 50 10 40) = some s) ∧
      (∃ s, scoreTotal (Rect.mk 100 50 10 40) (Rect.mk 130 50 10 40) = some s)) :=
  ⟨by decide, by decide, by decide, by decide, by decide, by decide,
    division_safe (Rect.mk 100 50 10 40) (Rect.mk 130 50 10 40)
      (by decide) (by decide) (by decide) (by decide) (by decide) (by decide)⟩

/-- A truncated quotient of a non-negative number by a positive one that is
`1` places the dividend between the divisor and its double. -/
theorem tdiv_eq_one (a b : Int) (ha : 0 ≤ a) (hb : 0 < b) (h : Int.tdiv a b = 1) :
    b ≤ a ∧ a < 2 * b := by
  rw [Int.tdiv_eq_ediv ha (le_of_lt hb)] at h
  have h1 := Int.ediv_mul_le a (ne_of_gt hb)
  have h2 := Int.lt_ediv_add_one_mul_self a hb
  rw [h] at h1 h2
  constructor <;> linarith

/-- For two rects with `x ≥ 0` and positive sizes the left-spacing score is
`0`: the dividend `3*|x2 - x1|` is below the divisor `4*right - left`. -/
theorem leftSpacingScore_eq_zero (r1 r2 : Rect) (hx1 : 0 ≤ r1.x) (hw1 : 0 < r1.width)
    (hh1 : 0 < r1.height) (hx2 : 0 ≤ r2.x) (hw2 : 0 < r2.width) (hh2 : 0 < r2.height) :
    leftSpacingScore r1 r2 = some 0 := by
  obtain ⟨d1, d2, d3, d4⟩ := box_divisors_ne_zero r1 r2 hx1 hw1 hh1 hx2 hw2 hh2
  have e4 := (scores_of_ne_zero r1 r2 d1 d2 d3 d4 (ne_of_gt hw2) (ne_of_gt hh2)).2.2.2.1
  have hnn : 0 ≤ |r2.x - r1.x| * 3 := by positivity
  have hlt : |r2.x - r1.x| * 3 <
      4 * (boundingRect.ofRects r1 r2).right - (boundingRect.ofRects r1 r2).left := by
    have habs : |r2.x - r1.x| ≤ max r1.x r2.x := by
      rw [abs_le]; constructor <;> omega
    simp only [boundingRect.ofRects]
    omega
  rw [e4, Int.tdiv_eq_zero_of_lt hnn hlt, scoreOfInt_eq]
  simp

/-- For two rects with `x ≥ 0` and positive sizes the contour-width score and
the width-ratio score are not both `100`. -/
theorem contourWidth_add_widthRatio_le (r1 r2 : Rect) (hx1 : 0 ≤ r1.x) (hw1 : 0 < r1.width)
    (hh1 : 0 < r1.height) (hx2 : 0 ≤ r2.x) (hw2 : 0 < r2.width) (hh2 : 0 < r2.height) :
    ∃ s2 s5 : ℚ, contourWidthScore r1 r2 = some s2 ∧ widthRatioScore r1 r2 = some s5 ∧
      s2 + s5 ≤ 100 := by
  obtain ⟨d1, d2, d3, d4⟩ := box_divisors_ne_zero r1 r2 hx1 hw1 hh1 hx2 hw2 hh2
  obtain ⟨_, e2, _, _, e5, _⟩ :=
    scores_of_ne_zero r1 r2 d1 d2 d3 d4 (ne_of_gt hw2) (ne_of_gt hh2)
  refine ⟨_, _, e2, e5, ?_⟩
  rw [scoreOfInt_eq, scoreOfInt_eq]
  by_cases hc : Int.tdiv (r1.width * 4)
      ((boundingRect.ofRects r1 r2).right - (boundingRect.ofRects r1 r2).left) = 1
  · by_cases hr : Int.tdiv r1.width r2.width = 1
    · exfalso
      have hpos : 0 < (boundingRect.ofRects r1 r2).right - (boundingRect.ofRects r1 r2).left := by
        simp only [boundingRect.ofRects]; omega
      have k1 := tdiv_eq_one _ _ (by omega) hpos hc
      have k2 := tdiv_eq_one _ _ (le_of_lt hw1) hw2 hr
      simp only [boundingRect.ofRects] at k1
      omega
    · rw [if_pos hc, if_neg hr]; norm_num
  · rw [if_neg hc]
    split_ifs <;> norm_num

/-- For two rects with `x ≥ 0` and positive sizes the total is defined and at
most `400`. -/
theorem scoreTotal_le_400 (r1 r2 : Rect) (hx1 : 0 ≤ r1.x) (hw1 : 0 < r1.width)
    (hh1 : 0 < r1.height) (hx2 : 0 ≤ r2.x) (hw2 : 0 < r2.width) (hh2 : 0 < r2.height) :
    ∃ s, scoreTotal r1 r2 = some s ∧ s ≤ 400 := by
  obtain ⟨d1, d2, d3, d4⟩ := box_divisors_ne_zero r1 r2 hx1 hw1 hh1 hx2 hw2 hh2
  obtain ⟨e1, _, e3, _, _, e6⟩ :=
    scores_of_ne_zero r1 r2 d1 d2 d3 d4 (ne_of_gt hw2) (ne_of_gt hh2)
  have e4 := leftSpacingScore_eq_zero r1 r2 hx1 hw1 hh1 hx2 hw2 hh2
  obtain ⟨s2, s5, e2, e5, h25⟩ := contourWidth_add_widthRatio_le r1 r2 hx1 hw1 hh1 hx2 hw2 hh2
  refine ⟨_, scoreTotal_of_some r1 r2 _ _ _ _ _ _ e1 e2 e3 e4 e5 e6, ?_⟩
  have b1 := scoreOfInt_le (Int.tdiv
    ((boundingRect.ofRects r1 r2).top - (boundingRect.ofRects r1 r2).bottom)
    (2 * ((boundingRect.ofRects r1 r2).left - (boundingRect.ofRects r1 r2).right)))
  have b3 := scoreOfInt_le (1 + Int.tdiv (r1.y - r2.y)
    ((boundingRect.ofRects r1 r2).top - (boundingRect.ofRects r1 r2).bottom))
  have b6 := scoreOfInt_le (Int.tdiv r1.height r2.height)
  linarith

/-- The inner loop marks nothing when no total of the row is above the
threshold. -/
theorem innerLoop_no_mark (r1 : Rect) (rest : List Rect)
    (h : ∀ r2 ∈ rest, ∃ s, scoreTotal r1 r2 = some s ∧ s ≤ (SCORE_THRESHOLD : ℚ)) :
    ∀ sel0 : Selection, innerLoop r1 rest sel0 = some sel0 := by
  induction rest with
  | nil => intro sel0; rfl
  | cons r2 rest ih =>
    intro sel0
    obtain ⟨s, hs, hle⟩ := h r2 (List.mem_cons_self _ _)
    have hm : ¬ (s > sel0.highScore ∧ s > (SCORE_THRESHOLD : ℚ)) :=
      fun hc => absurd hc.2 (not_lt.mpr hle)
    simp only [innerLoop, hs, mark_of_not_gt sel0 r1 r2 s hm]
    exact ih (fun b hb => h b (List.mem_cons_of_mem _ hb)) sel0

/-- The nested loops mark nothing when no pair total is above the threshold. -/
theorem outerLoop_no_mark (l : List Rect)
    (h : ∀ r1 ∈ l, ∀ r2 ∈ l, ∃ s, scoreTotal r1 r2 = some s ∧ s ≤ (SCORE_THRESHOLD : ℚ)) :
    ∀ sel0 : Selection, outerLoop l sel0 = some sel0 := by
  induction l with
  | nil => intro sel0; rfl
  | cons r1 rest ih =>
    intro sel0
    have hin := innerLoop_no_mark r1 rest
      (fun r2 h2 => h r1 (List.mem_cons_self _ _) r2 (List.mem_cons_of_mem _ h2)) sel0
    simp only [outerLoop, hin]
    exact ih (fun a ha b hb => h a (List.mem_cons_of_mem _ ha) b (List.mem_cons_of_mem _ hb)) sel0

/-- C18: for a candidate list of rects with `x ≥ 0`, `width > 0` and
`height > 0`, every pair of its rects has a total of at most `400`, hence not
above `SCORE_THRESHOLD` (the left-spacing score is `0`, and the contour-width
and width-ratio scores are not both `100`); so the pair search marks nothing:
it ends with `highScore = 0` and the default `boundingRect()`, whose four
edges are `0`. -/
theorem no_pair_passes (l : List Rect)
    (hpos : ∀ r ∈ l, 0 ≤ r.x ∧ 0 < r.width ∧ 0 < r.height) :
    (∀ r1 ∈ l, ∀ r2 ∈ l, ∃ s, scoreTotal r1 r2 = some s ∧ s ≤ 400 ∧
      ¬ (s > (SCORE_THRESHOLD : ℚ)) ∧ leftSpacingScore r1 r2 = some 0 ∧
      ¬ (contourWidthScore r1 r2 = some 100 ∧ widthRatioScore r1 r2 = some 100)) ∧
    selectTarget l =
      some { highScore := 0, target := { top := 0, bottom := 0, left := 0, right := 0 } } := by
  have hT : (400 : ℚ) < (SCORE_THRESHOLD : ℚ) := by simp only [SCORE_THRESHOLD]; norm_num
  constructor
  · intro r1 h1 r2 h2
    obtain ⟨hx1, hw1, hh1⟩ := hpos r1 h1
    obtain ⟨hx2, hw2, hh2⟩ := hpos r2 h2
    obtain ⟨s, hs, hle⟩ := scoreTotal_le_400 r1 r2 hx1 hw1 hh1 hx2 hw2 hh2
    refine ⟨s, hs, hle, not_lt.mpr (le_of_lt (lt_of_le_of_lt hle hT)),
      leftSpacingScore_eq_zero r1 r2 hx1 hw1 hh1 hx2 hw2 hh2, ?_⟩
    rintro ⟨hc, hr⟩
    obtain ⟨s2, s5, e2, e5, h25⟩ :=
      contourWidth_add_widthRatio_le r1 r2 hx1 hw1 hh1 hx2 hw2 hh2
    rw [hc] at e2
    rw [hr] at e5
    rw [← Option.some.inj e2, ← Option.some.inj e5] at h25
    norm_num at h25
  · have hall : ∀ r1 ∈ l, ∀ r2 ∈ l,
        ∃ s, scoreTotal r1 r2 = some s ∧ s ≤ (SCORE_THRESHOLD : ℚ) := by
      intro r1 h1 r2 h2
      obtain ⟨hx1, hw1, hh1⟩ := hpos r1 h1
      obtain ⟨hx2, hw2, hh2⟩ := hpos r2 h2
      obtain ⟨s, hs, hle⟩ := scoreTotal_le_400 r1 r2 hx1 hw1 hh1 hx2 hw2 hh2
      exact ⟨s, hs, le_of_lt (lt_of_le_of_lt hle hT)⟩
    exact outerLoop_no_mark l hall { highScore := 0, target := boundingRect.zero }

/-- Witness of C18: the frame `[Rect(100,50,10,40), Rect(130,50,10,40)]`. -/
theorem no_pair_passes_witness :
    (∀ r ∈ [Rect.mk 100 50 10 40, Rect.mk 130 50 10 40], 0 ≤ r.x ∧ 0 < r.width ∧ 0 < r.height) ∧
    ((∀ r1 ∈ [Rect.mk 100 50 10 40, Rect.mk 130 50 10 40],
        ∀ r2 ∈ [Rect.mk 100 50 10 40, Rect.mk 130 50 10 40],
          ∃ s, scoreTotal r1 r2 = some s ∧ s ≤ 400 ∧
            ¬ (s > (SCORE_THRESHOLD : ℚ)) ∧ leftSpacingScore r1 r2 = some 0 ∧
            ¬ (contourWidthScore r1 r2 = some 100 ∧ widthRatioScore r1 r2 = some 100)) ∧
      selectTarget [Rect.mk 100 50 10 40, Rect.mk 130 50 10 40] =
        some { highScore := 0, target := { top := 0, bottom := 0, left := 0, right := 0 } }) :=
  ⟨by decide, no_pair_passes [Rect.mk 100 50 10 40, Rect.mk 130 50 10 40] (by decide)⟩

/-! ## Two-valued scores -/

/-- C20: every score function returns the image of its `int` ratio under
"`100` if the ratio is `1`, else `0`", so a score is `0` or `100`; a defined
total is `100` times the number of scores that are `100`, and it is above
`450` iff at least five of the six scores are `100`. -/
theorem scores_two_valued (r1 r2 : Rect) :
    boundingRatioScore r1 r2 =
      (cdiv ((boundingRect.ofRects r1 r2).top - (boundingRect.ofRects r1 r2).bottom)
        (2 * ((boundingRect.ofRects r1 r2).left - (boundingRect.ofRects r1 r2).right))).map
        (fun q => if q = 1 then (100 : ℚ) else 0) ∧
    contourWidthScore r1 r2 =
      (cdiv (r1.width * 4)
        ((boundingRect.ofRects r1 r2).right - (boundingRect.ofRects r1 r2).left)).map
        (fun q => if q = 1 then (100 : ℚ) else 0) ∧
    topEdgeScore r1 r2 =
      (cdiv (r1.y - r2.y)
        ((boundingRect.ofRects r1 r2).top - (boundingRect.ofRects r1 r2).bottom)).map
        (fun q => if 1 + q = 1 then (100 : ℚ) else 0) ∧
    leftSpacingScore r1 r2 =
      (cdiv (|r2.x - r1.x| * 3)
        (4 * (boundingRect.ofRects r1 r2).right - (boundingRect.ofRects r1 r2).left)).map
        (fun q => if q = 1 then (100 : ℚ) else 0) ∧
    widthRatioScore r1 r2 =
      (cdiv r1.width r2.width).map (fun q => if q = 1 then (100 : ℚ) else 0) ∧
    heightRatioScore r1 r2 =
      (cdiv r1.height r2.height).map (fun q => if q = 1 then (100 : ℚ) else 0) ∧
    (∀ s, scoreTotal r1 r2 = some s →
      ∃ s1 s2 s3 s4 s5 s6 : ℚ,
        boundingRatioScore r1 r2 = some s1 ∧ contourWidthScore r1 r2 = some s2 ∧
        topEdgeScore r1 r2 = some s3 ∧ leftSpacingScore r1 r2 = some s4 ∧
        widthRatioScore r1 r2 = some s5 ∧ heightRatioScore r1 r2 = some s6 ∧
        (s1 = 0 ∨ s1 = 100) ∧ (s2 = 0 ∨ s2 = 100) ∧ (s3 = 0 ∨ s3 = 100) ∧
        (s4 = 0 ∨ s4 = 100) ∧ (s5 = 0 ∨ s5 = 100) ∧ (s6 = 0 ∨ s6 = 100) ∧
        s = 100 * (([s1, s2, s3, s4, s5, s6].count 100 : Nat) : ℚ) ∧
        ((SCORE_THRESHOLD : ℚ) < s ↔ 5 ≤ [s1, s2, s3, s4, s5, s6].count 100)) := by
  have hfun : scoreOfInt = fun q : Int => if q = 1 then (100 : ℚ) else 0 :=
    funext scoreOfInt_eq
  have hfun' : (fun q : Int => scoreOfInt (1 + q)) =
      fun q : Int => if 1 + q = 1 then (100 : ℚ) else 0 :=
    funext (fun q => scoreOfInt_eq (1 + q))
  have two : ∀ (a b : Int) (f : Int → ℚ), (∀ q, f q = 0 ∨ f q = 100) →
      ∀ s, (cdiv a b).map f = some s → s = 0 ∨ s = 100 := by
    intro a b f hf s hs
    rw [(cdiv_map_some a b f s hs).2]
    exact hf _
  refine ⟨?_, ?_, ?_, ?_, ?_, ?_, ?_⟩
  · simp only [boundingRatioScore, hfun]
  · simp only [contourWidthScore, hfun]
  · simp only [topEdgeScore, hfun']
  · simp only [leftSpacingScore, hfun]
  · simp only [widthRatioScore, hfun]
  · simp only [heightRatioScore, hfun]
  · intro s hs
    obtain ⟨s1, s2, s3, s4, s5, s6, h1, h2, h3, h4, h5, h6, hsum⟩ := scoreTotal_some r1 r2 s hs
    have t1 : s1 = 0 ∨ s1 = 100 := two _ _ _ scoreOfInt_zero_or s1 h1
    have t2 : s2 = 0 ∨ s2 = 100 := two _ _ _ scoreOfInt_zero_or s2 h2
    have t3 : s3 = 0 ∨ s3 = 100 := two _ _ _ (fun q => scoreOfInt_zero_or (1 + q)) s3 h3
    have t4 : s4 = 0 ∨ s4 = 100 := two _ _ _ scoreOfInt_zero_or s4 h4
    have t5 : s5 = 0 ∨ s5 = 100 := two _ _ _ scoreOfInt_zero_or s5 h5
    have t6 : s6 = 0 ∨ s6 = 100 := two _ _ _ scoreOfInt_zero_or s6 h6
    refine ⟨s1, s2, s3, s4, s5, s6, h1, h2, h3, h4, h5, h6, t1, t2, t3, t4, t5, t6, ?_⟩
    rw [hsum]
    rcases t1 with rfl | rfl <;> rcases t2 with rfl | rfl <;> rcases t3 with rfl | rfl <;>
      rcases t4 with rfl | rfl <;> rcases t5 with rfl | rfl <;> rcases t6 with rfl | rfl <;>
      simp [SCORE_THRESHOLD] <;> norm_num

/-- Witness of C20: the pair `Rect(12,2,6,13)`, `Rect(-16,-3,6,7)`, whose
total `500` comes from five scores of `100`. -/
theorem scores_two_valued_witness :
    scoreTotal (Rect.mk 12 2 6 13) (Rect.mk (-16) (-3) 6 7) = some 500 ∧
    ∃ s1 s2 s3 s4 s5 s6 : ℚ,
      boundingRatioScore (Rect.mk 12 2 6 13) (Rect.mk (-16) (-3) 6 7) = some s1 ∧
      contourWidthScore (Rect.mk 12 2 6 13) (Rect.mk (-16) (-3) 6 7) = some s2 ∧
      topEdgeScore (Rect.mk 12 2 6 13) (Rect.mk (-16) (-3) 6 7) = some s3 ∧
      leftSpacingScore (Rect.mk 12 2 6 13) (Rect.mk (-16) (-3) 6 7) = some s4 ∧
      widthRatioScore (Rect.mk 12 2 6 13) (Rect.mk (-16) (-3) 6 7) = some s5 ∧
      heightRatioScore (Rect.mk 12 2 6 13) (Rect.mk (-16) (-3) 6 7) = some s6 ∧
      (s1 = 0 ∨ s1 = 100) ∧ (s2 = 0 ∨ s2 = 100) ∧ (s3 = 0 ∨ s3 = 100) ∧
      (s4 = 0 ∨ s4 = 100) ∧ (s5 = 0 ∨ s5 = 100) ∧ (s6 = 0 ∨ s6 = 100) ∧
      (500 : ℚ) = 100 * (([s1, s2, s3, s4, s5, s6].count 100 : Nat) : ℚ) ∧
      ((SCORE_THRESHOLD : ℚ) < 500 ↔ 5 ≤ [s1, s2, s3, s4, s5, s6].count 100) := by
  have h : scoreTotal (Rect.mk 12 2 6 13) (Rect.mk (-16) (-3) 6 7) = some 500 := by
    simp +decide [scoreTotal, boundingRatioScore, contourWidthScore, topEdgeScore,
      leftSpacingScore, widthRatioScore, heightRatioScore, boundingRect.ofRects, cdiv,
      scoreOfInt_eq]
    norm_num
  exact ⟨h, (scores_two_valued (Rect.mk 12 2 6 13) (Rect.mk (-16) (-3) 6 7)).2.2.2.2.2.2 500 h⟩

/-! ## Range of the published centre -/

/-- A property of the initial target and of the box of every pair of the row
holds of the target after the inner loop. -/
theorem innerLoop_target (P : boundingRect → Prop) (r1 : Rect) (rest : List Rect)
    (hP : ∀ r2 ∈ rest, P (boundingRect.ofRects r1 r2)) :
    ∀ sel0 sel : Selection, P sel0.target → innerLoop r1 rest sel0 = some sel →
      P sel.target := by
  induction rest with
  | nil =>
    intro sel0 sel h0 hrun
    simp only [innerLoop, Option.some.injEq] at hrun
    rw [← hrun]; exact h0
  | cons r2 rest ih =>
    intro sel0 sel h0 hrun
    cases hs : scoreTotal r1 r2 with
    | none => simp [innerLoop, hs] at hrun
    | some s =>
      simp only [innerLoop, hs] at hrun
      refine ih (fun b hb => hP b (List.mem_cons_of_mem _ hb)) _ sel ?_ hrun
      unfold mark
      split_ifs
      · exact hP r2 (List.mem_cons_self _ _)
      · exact h0

/-- A property of the initial target and of the box of every pair of the list
holds of the target after the nested loops. -/
theorem outerLoop_target (P : boundingRect → Prop) (l : List Rect)
    (hP : ∀ r1 ∈ l, ∀ r2 ∈ l, P (boundingRect.ofRects r1 r2)) :
    ∀ sel0 sel : Selection, P sel0.target → outerLoop l sel0 = some sel →
      P sel.target := by
  induction l with
  | nil =>
    intro sel0 sel h0 hrun
    simp only [outerLoop, Option.some.injEq] at hrun
    rw [← hrun]; exact h0
  | cons r1 rest ih =>
    intro sel0 sel h0 hrun
    cases hi : innerLoop r1 rest sel0 with
    | none => simp [outerLoop, hi] at hrun
    | some sel1 =>
      simp only [outerLoop, hi] at hrun
      have h1 : P sel1.target :=
        innerLoop_target P r1 rest
          (fun r2 h2 => hP r1 (List.mem_cons_self _ _) r2 (List.mem_cons_of_mem _ h2))
          sel0 sel1 h0 hi
      exact ih (fun a ha b hb => hP a (List.mem_cons_of_mem _ ha) b (List.mem_cons_of_mem _ hb))
        sel1 sel h1 hrun

/-- For two rects with `x ≥ 0` and `width ≥ 0` a defined total is at most
`400`: the divisors being non-zero, the left-spacing score is `0` and the
contour-width and width-ratio scores are not both `100`. -/
theorem scoreTotal_le_400_of_defined (r1 r2 : Rect) (s : ℚ) (hx1 : 0 ≤ r1.x)
    (hw1 : 0 ≤ r1.width) (hx2 : 0 ≤ r2.x) (hw2 : 0 ≤ r2.width)
    (hs : scoreTotal r1 r2 = some s) : s ≤ 400 := by
  obtain ⟨s1, s2, s3, s4, s5, s6, h1, h2, h3, h4, h5, h6, hsum⟩ := scoreTotal_some r1 r2 s hs
  obtain ⟨_, e1⟩ := cdiv_map_some _ _ scoreOfInt s1 h1
  obtain ⟨d2, e2⟩ := cdiv_map_some _ _ scoreOfInt s2 h2
  obtain ⟨_, e3⟩ := cdiv_map_some _ _ (fun q => scoreOfInt (1 + q)) s3 h3
  obtain ⟨d4, e4⟩ := cdiv_map_some _ _ scoreOfInt s4 h4
  obtain ⟨d5, e5⟩ := cdiv_map_some _ _ scoreOfInt s5 h5
  obtain ⟨_, e6⟩ := cdiv_map_some _ _ scoreOfInt s6 h6
  have hpos : 0 < (boundingRect.ofRects r1 r2).right - (boundingRect.ofRects r1 r2).left := by
    simp only [boundingRect.ofRects] at d2 ⊢
    omega
  have z4 : s4 = 0 := by
    have hnn : 0 ≤ |r2.x - r1.x| * 3 := by positivity
    have hlt : |r2.x - r1.x| * 3 <
        4 * (boundingRect.ofRects r1 r2).right - (boundingRect.ofRects r1 r2).left := by
      have habs : |r2.x - r1.x| ≤ max r1.x r2.x := by
        rw [abs_le]; constructor <;> omega
      simp only [boundingRect.ofRects] at hpos ⊢
      omega
    rw [e4, Int.tdiv_eq_zero_of_lt hnn hlt, scoreOfInt_eq]
    simp
  have z25 : s2 + s5 ≤ 100 := by
    rw [e2, e5, scoreOfInt_eq, scoreOfInt_eq]
    by_cases hc : Int.tdiv (r1.width * 4)
        ((boundingRect.ofRects r1 r2).right - (boundingRect.ofRects r1 r2).left) = 1
    · by_cases hr : Int.tdiv r1.width r2.width = 1
      · exfalso
        have k1 := tdiv_eq_one _ _ (by omega) hpos hc
        have k2 := tdiv_eq_one _ _ hw1 (by omega) hr
        simp only [boundingRect.ofRects] at k1
        omega
      · rw [if_pos hc, if_neg hr]; norm_num
    · rw [if_neg hc]
      split_ifs <;> norm_num
  have b1 : s1 ≤ 100 := by rw [e1]; exact scoreOfInt_le _
  have b3 : s3 ≤ 100 := by rw [e3]; exact scoreOfInt_le _
  have b6 : s6 ≤ 100 := by rw [e6]; exact scoreOfInt_le _
  rw [hsum, z4]
  linarith

/-- The inner loop keeps the selection when no defined total of the row is
above the threshold. -/
theorem innerLoop_keep (r1 : Rect) (rest : List Rect)
    (h : ∀ r2 ∈ rest, ∀ s, scoreTotal r1 r2 = some s → s ≤ (SCORE_THRESHOLD : ℚ)) :
    ∀ sel0 sel : Selection, innerLoop r1 rest sel0 = some sel → sel = sel0 := by
  induction rest with
  | nil =>
    intro sel0 sel hrun
    simp only [innerLoop, Option.some.injEq] at hrun
    exact hrun.symm
  | cons r2 rest ih =>
    intro sel0 sel hrun
    cases hs : scoreTotal r1 r2 with
    | none => simp [innerLoop, hs] at hrun
    | some s =>
      have hle := h r2 (List.mem_cons_self _ _) s hs
      have hm : ¬ (s > sel0.highScore ∧ s > (SCORE_THRESHOLD : ℚ)) :=
        fun hc => absurd hc.2 (not_lt.mpr hle)
      simp only [innerLoop, hs, mark_of_not_gt sel0 r1 r2 s hm] at hrun
      exact ih (fun b hb => h b (List.mem_cons_of_mem _ hb)) sel0 sel hrun

/-- The nested loops keep the selection when no defined pair total is above
the threshold. -/
theorem outerLoop_keep (l : List Rect)
    (h : ∀ r1 ∈ l, ∀ r2 ∈ l, ∀ s, scoreTotal r1 r2 = some s → s ≤ (SCORE_THRESHOLD : ℚ)) :
    ∀ sel0 sel : Selection, outerLoop l sel0 = some sel → sel = sel0 := by
  induction l with
  | nil =>
    intro sel0 sel hrun
    simp only [outerLoop, Option.some.injEq] at hrun
    exact hrun.symm
  | cons r1 rest ih =>
    intro sel0 sel hrun
    cases hi : innerLoop r1 rest sel0 with
    | none => simp [outerLoop, hi] at hrun
    | some sel1 =>
      simp only [outerLoop, hi] at hrun
      have e1 : sel1 = sel0 :=
        innerLoop_keep r1 rest
          (fun r2 h2 => h r1 (List.mem_cons_self _ _) r2 (List.mem_cons_of_mem _ h2))
          sel0 sel1 hi
      have e2 : sel = sel1 :=
        ih (fun a ha b hb => h a (List.mem_cons_of_mem _ ha) b (List.mem_cons_of_mem _ hb))
          sel1 sel hrun
      rw [e2, e1]

/-- The centre stored for a box whose `left` and `right` lie in the image is
in `[0, 320]`. -/
theorem centerXOf_range (B : boundingRect) (h0 : 0 ≤ B.left + B.right)
    (h1 : B.left + B.right ≤ 640) : 0 ≤ centerXOf B ∧ centerXOf B ≤ 320 := by
  have hq : 0 ≤ Int.tdiv (B.left + B.right) 2 ∧ Int.tdiv (B.left + B.right) 2 ≤ 320 := by
    rw [Int.tdiv_eq_ediv h0 (by decide)]
    omega
  simp only [centerXOf]
  exact ⟨by exact_mod_cast hq.1, by exact_mod_cast hq.2⟩

/-- C15: for a frame of at least two rects that all lie inside the image
horizontally (`0 ≤ x`, `x + width ≤ IMG_WIDTH`, `width ≥ 0`): the centre
`(left + right) / 2` of the box of any two rects of the frame lies in
`[0, 320]`, so does the centre of the target the pair search ends with, and so
does every `centerX` the callback writes to the latch. On such a frame no
defined total is above the threshold, so what the callback writes is the
centre `0` of the default box, with an infinite distance. -/
theorem processFrame_centerX_range (t : ℚ) (l : List Rect) (latch : Latch)
    (hN : 2 ≤ l.length)
    (hin : ∀ r ∈ l, 0 ≤ r.x ∧ r.x + r.width ≤ IMG_WIDTH ∧ 0 ≤ r.width) :
    (∀ r1 ∈ l, ∀ r2 ∈ l,
      0 ≤ centerXOf (boundingRect.ofRects r1 r2) ∧
      centerXOf (boundingRect.ofRects r1 r2) ≤ 320) ∧
    (∀ sel, selectTarget l = some sel →
      0 ≤ centerXOf sel.target ∧ centerXOf sel.target ≤ 320) ∧
    (∀ latch', processFrame t l latch = some latch' →
      0 ≤ latch'.centerX ∧ latch'.centerX ≤ 320 ∧
      latch' = { centerX := 0, distance := Dbl.inf }) := by
  have hlen : l.length > 1 := by omega
  have hpair : ∀ r1 ∈ l, ∀ r2 ∈ l,
      0 ≤ (boundingRect.ofRects r1 r2).left + (boundingRect.ofRects r1 r2).right ∧
      (boundingRect.ofRects r1 r2).left + (boundingRect.ofRects r1 r2).right ≤ 640 := by
    intro r1 h1 r2 h2
    have a1 := hin r1 h1
    have a2 := hin r2 h2
    simp only [IMG_WIDTH] at a1 a2
    simp only [boundingRect.ofRects]
    omega
  have htarget : ∀ sel, selectTarget l = some sel →
      0 ≤ sel.target.left + sel.target.right ∧ sel.target.left + sel.target.right ≤ 640 := by
    intro sel hsel
    exact outerLoop_target (fun B => 0 ≤ B.left + B.right ∧ B.left + B.right ≤ 640) l hpair
      { highScore := 0, target := boundingRect.zero } sel (by simp [boundingRect.zero]) hsel
  have hT : (400 : ℚ) ≤ (SCORE_THRESHOLD : ℚ) := by simp only [SCORE_THRESHOLD]; norm_num
  have hdefault : ∀ sel, selectTarget l = some sel →
      sel = { highScore := 0, target := boundingRect.zero } := by
    intro sel hsel
    refine outerLoop_keep l ?_ { highScore := 0, target := boundingRect.zero } sel hsel
    intro r1 h1 r2 h2 s hs
    have a1 := hin r1 h1
    have a2 := hin r2 h2
    exact le_trans (scoreTotal_le_400_of_defined r1 r2 s a1.1 a1.2.2 a2.1 a2.2.2 hs) hT
  refine ⟨?_, ?_, ?_⟩
  · intro r1 h1 r2 h2
    exact centerXOf_range _ (hpair r1 h1 r2 h2).1 (hpair r1 h1 r2 h2).2
  · intro sel hsel
    exact centerXOf_range _ (htarget sel hsel).1 (htarget sel hsel).2
  · intro latch' hrun
    cases hsel : selectTarget l with
    | none => simp [processFrame, hlen, hsel] at hrun
    | some sel =>
      simp only [processFrame, if_pos hlen, hsel, Option.some.injEq] at hrun
      have hr := centerXOf_range _ (htarget sel hsel).1 (htarget sel hsel).2
      have hd := hdefault sel hsel
      rw [← hrun]
      refine ⟨hr.1, hr.2, ?_⟩
      rw [hd]
      simp +decide [centerXOf, localDistance, viewHeight, boundingRect.zero]

/-- Witness of C15: the frame `[Rect(100,50,10,40), Rect(130,50,10,40)]`; the
box of its pair has the centre `135`, and the callback writes `centerX = 0`. -/
theorem processFrame_centerX_range_witness :
    2 ≤ [Rect.mk 100 50 10 40, Rect.mk 130 50 10 40].length ∧
    (∀ r ∈ [Rect.mk 100 50 10 40, Rect.mk 130 50 10 40],
      0 ≤ r.x ∧ r.x + r.width ≤ IMG_WIDTH ∧ 0 ≤ r.width) ∧
    centerXOf (boundingRect.ofRects (Rect.mk 100 50 10 40) (Rect.mk 130 50 10 40)) = 135 ∧
    processFrame (3 / 8) [Rect.mk 100 50 10 40, Rect.mk 130 50 10 40] Latch.init =
      some { centerX := 0, distance := Dbl.inf } ∧
    ((∀ r1 ∈ [Rect.mk 100 50 10 40, Rect.mk 130 50 10 40],
        ∀ r2 ∈ [Rect.mk 100 50 10 40, Rect.mk 130 50 10 40],
          0 ≤ centerXOf (boundingRect.ofRects r1 r2) ∧
          centerXOf (boundingRect.ofRects r1 r2) ≤ 320) ∧
      (∀ sel, selectTarget [Rect.mk 100 50 10 40, Rect.mk 130 50 10 40] = some sel →
        0 ≤ centerXOf sel.target ∧ centerXOf sel.target ≤ 320) ∧
      (∀ latch',
        processFrame (3 / 8) [Rect.mk 100 50 10 40, Rect.mk 130 50 10 40] Latch.init =
          some latch' →
        0 ≤ latch'.centerX ∧ latch'.centerX ≤ 320 ∧
        latch' = { centerX := 0, distance := Dbl.inf })) := by
  have hc : centerXOf (boundingRect.ofRects (Rect.mk 100 50 10 40) (Rect.mk 130 50 10 40)) =
      135 := by
    have h : Int.tdiv ((130 : Int) + 140) 2 = 135 := by decide
    simp +decide [centerXOf, boundingRect.ofRects, h]
  have hrun : processFrame (3 / 8) [Rect.mk 100 50 10 40, Rect.mk 130 50 10 40] Latch.init =
      some { centerX := 0, distance := Dbl.inf } := by
    simp +decide [processFrame, selectTarget, outerLoop, innerLoop, mark, scoreTotal,
      boundingRatioScore, contourWidthScore, topEdgeScore, leftSpacingScore, widthRatioScore,
      heightRatioScore, boundingRect.ofRects, cdiv, scoreOfInt_eq, centerXOf, localDistance,
      viewHeight, boundingRect.zero, SCORE_THRESHOLD]
    norm_num
  exact ⟨by decide, by decide, hc, hrun,
    processFrame_centerX_range (3 / 8) [Rect.mk 100 50 10 40, Rect.mk 130 50 10 40]
      Latch.init (by decide) (by decide)⟩

end Robot
